import Mathlib

/- Verification development for the lfsd repository (an LFS racing-simulator
driverless bridge).  The Python source is shallowly embedded: pure float
computations become functions over the reals (with NaN modelled as an Option
none where the source can produce one), exact fixed-point arithmetic over the
rationals and integers, byte buffers as lists of naturals, and Python
exceptions as Except errors.  Each claim about the specification is then
settled as a theorem about these definitions. -/

namespace Lfsd

/-- Cone types from lyt_interface/cone_observation.py: an IntEnum with five
values, UNKNOWN = 0, RIGHT = YELLOW = 1, LEFT = BLUE = 2,
START_FINISH_AREA = ORANGE_SMALL = 3, START_FINISH_LINE = ORANGE_BIG = 4. -/
inductive ConeTypes where
  | unknown
  | yellow
  | blue
  | orangeSmall
  | orangeBig
  deriving DecidableEq, Repr

/-- Iteration order of the ConeTypes enum, as produced by iterating over the
Python enum (ascending values 0..4). -/
def ConeTypes.all : List ConeTypes :=
  [.unknown, .yellow, .blue, .orangeSmall, .orangeBig]

/-- Python exception kinds raised by the embedded code paths. -/
inductive PyError where
  | typeError
  | valueError
  | indexError
  | structError
  | assertionError
  deriving DecidableEq, Repr

/- ----------------------------------------------------------------------
   Geometry kernel: math_utils.py
   ---------------------------------------------------------------------- -/

noncomputable section

/-- Elementwise product-sum of two 2D vectors, from math_utils.vec_dot. -/
def vec_dot (v1 v2 : ℝ × ℝ) : ℝ := v1.1 * v2.1 + v1.2 * v2.2

/-- Euclidean norm of a 2D vector, np.linalg.norm over the last axis. -/
def norm2 (v : ℝ × ℝ) : ℝ := Real.sqrt (v.1 ^ 2 + v.2 ^ 2)

/-- Sequential clamping of a cosine value to [-1, 1], from the two masked
writes in math_utils.vec_angle_between (values below -1 are set to -1, then
values above 1 are set to 1). -/
def clampUnit (c : ℝ) : ℝ := if c < -1 then -1 else if 1 < c then 1 else c

/-- Model of numpy arccos on floats: an argument outside [-1, 1] produces NaN
(modelled as none); an in-domain argument gives the real arccos. -/
def arccosF (c : ℝ) : Option ℝ :=
  if c < -1 ∨ 1 < c then none else some (Real.arccos c)

/-- Angle between two 2D vectors, from math_utils.vec_angle_between.  The
source divides the dot product by the product of the norms; when that product
is zero the float quotient 0/0 is NaN, every comparison with NaN is false (so
the clamping writes leave it alone) and arccos of NaN is NaN; NaN is modelled
as none. -/
def vec_angle_between (v1 v2 : ℝ × ℝ) (clip_cos_theta : Bool) : Option ℝ :=
  let n := norm2 v1 * norm2 v2
  if n = 0 then none
  else arccosF (if clip_cos_theta then clampUnit (vec_dot v1 v2 / n)
                else vec_dot v1 v2 / n)

/-- Model of vec_angle_between when the cosine quotient is computed in floating
point: e is the rounding error added to the exact quotient, which for
near-parallel or near-antiparallel vectors can push the computed cosine
slightly outside [-1, 1]. -/
def vec_angle_between_fperr (v1 v2 : ℝ × ℝ) (e : ℝ) (clip_cos_theta : Bool) :
    Option ℝ :=
  let n := norm2 v1 * norm2 v2
  if n = 0 then none
  else arccosF (if clip_cos_theta then clampUnit (vec_dot v1 v2 / n + e)
                else vec_dot v1 v2 / n + e)

/-- Model of np.arctan2 y x: the argument of the complex number x + y i,
in the interval (-pi, pi]. -/
def atan2 (y x : ℝ) : ℝ := Complex.arg ⟨x, y⟩

/-- Rotation of a list of 2D points by the angle theta around the origin, from
math_utils.rotate: np.dot(points, R.T) with R built from ((cos, -sin),
(sin, cos)).T sends each row point p to the standard rotation R(theta) p. -/
def rotate (points : List (ℝ × ℝ)) (theta : ℝ) : List (ℝ × ℝ) :=
  points.map fun p =>
    (Real.cos theta * p.1 - Real.sin theta * p.2,
     Real.sin theta * p.1 + Real.cos theta * p.2)

/-- Frame conversion into the car frame, from math_utils.trace_to_local_space:
subtract the car position and rotate by car_angle = -atan2(dir.y, dir.x). -/
def trace_to_local_space (car_pos car_dir : ℝ × ℝ) (trace : List (ℝ × ℝ)) :
    List (ℝ × ℝ) :=
  rotate (trace.map fun p => (p.1 - car_pos.1, p.2 - car_pos.2))
    (-atan2 car_dir.2 car_dir.1)

/-- Frame conversion out of the car frame, from
math_utils.trace_to_global_space: rotate by car_angle = -atan2(dir.y, dir.x)
(the same angle as trace_to_local_space, not its negation) and add the car
position. -/
def trace_to_global_space (car_pos car_dir : ℝ × ℝ) (trace : List (ℝ × ℝ)) :
    List (ℝ × ℝ) :=
  (rotate trace (-atan2 car_dir.2 car_dir.1)).map fun p =>
    (p.1 + car_pos.1, p.2 + car_pos.2)

/-- Visibility of a single cone, the per-cone component of
math_utils.cones_in_range_and_pov_mask: the distance from the car must be
strictly below sight_range, and the (NaN-guarded) angle between the car
direction and the vector from the car to the cone must lie strictly inside
(-sight_angle/2, sight_angle/2).  A NaN angle (zero-norm factor) makes both
strict comparisons false. -/
def coneVisible (car_pos car_dir : ℝ × ℝ) (sight_range sight_angle : ℝ)
    (cone : ℝ × ℝ) : Prop :=
  norm2 (car_pos.1 - cone.1, car_pos.2 - cone.2) < sight_range ∧
    match vec_angle_between car_dir (cone.1 - car_pos.1, cone.2 - car_pos.2)
        true with
    | none => False
    | some theta => -sight_angle / 2 < theta ∧ theta < sight_angle / 2

/-- math_utils.cones_in_range_and_pov_mask: the boolean visibility mask over a
list of cones, one entry per cone. -/
def cones_in_range_and_pov_mask (car_pos car_dir : ℝ × ℝ)
    (sight_range sight_angle : ℝ) (colored_cones : List (ℝ × ℝ)) : List Prop :=
  colored_cones.map (coneVisible car_pos car_dir sight_range sight_angle)

/-- Angle between two vectors as the specification phrases it: the arccos of
the normalized dot product, the standard angle in [0, pi].  Used to state the
detection claims against the source mask. -/
def angleBetweenSpec (u v : ℝ × ℝ) : ℝ :=
  Real.arccos (vec_dot u v / (norm2 u * norm2 v))

end

/- ----------------------------------------------------------------------
   Tick processor: delta-time smoothing, OutsimInterface.__aiter__
   (outsim_interface/__init__.py lines 393-400)
   ---------------------------------------------------------------------- -/

/-- Arithmetic mean of a list of rationals (np.mean); the source only takes it
on non-empty windows thanks to short-circuit evaluation. -/
def listMean (l : List ℚ) : ℚ := l.sum / l.length

/-- Python slice l[-n:]: the last n elements of l (all of l when it is
shorter than n). -/
def lastSlice (n : ℕ) (l : List ℚ) : List ℚ := l.drop (l.length - n)

/-- One iteration of the delta-time smoothing in OutsimInterface.__aiter__:
with loop counter i and rolling window delta_ts, a raw delta-time larger than
3 times the window mean is replaced by that mean when i > 50 and the window is
non-empty; the (possibly substituted) value is appended to the last 30 window
entries.  Returns the used delta-time and the new window. -/
def deltaTimeStep (i : ℕ) (delta_ts : List ℚ) (delta_t_raw : ℚ) : ℚ × List ℚ :=
  let delta_t :=
    if 50 < i ∧ delta_ts ≠ [] ∧ 3 * listMean delta_ts < delta_t_raw then
      listMean delta_ts
    else delta_t_raw
  (delta_t, lastSlice 30 delta_ts ++ [delta_t])

/-- The rolling window produced by running the per-tick loop on a list of raw
delta-times, starting from the empty window at loop counter 0. -/
def deltaTimeRun (raws : List ℚ) : List ℚ :=
  (raws.enum.foldl (fun w idt => (deltaTimeStep idt.1 w idt.2).2) [])

/- ----------------------------------------------------------------------
   LYT layout codec: lyt_interface/io/common.py, load_lyt.py, write_lyt.py.
   Byte buffers are lists of naturals below 256; coordinates in meters are
   rationals (the file stores them in 1/16-meter fixed point).
   ---------------------------------------------------------------------- -/

/-- Errors of the layout codec.  The source enforces the header checks with
assert statements; the specification names that failure mode FormatError.
structError models Python struct.error on malformed byte lengths. -/
inductive LytLoadError where
  | formatError
  | structError
  deriving DecidableEq, Repr

/-- Truncation toward zero: the conversion performed by numpy astype(int) and
Python int() on exact values. -/
def truncQ (q : ℚ) : ℤ := if 0 ≤ q then ⌊q⌋ else ⌈q⌉

/-- struct.pack of a signed 16-bit value (format h), little endian
two's-complement; struct.error (none) outside [-32768, 32767]. -/
def packInt16 (n : ℤ) : Option (List ℕ) :=
  if n < -32768 ∨ 32767 < n then none
  else
    let u := (n % 65536).toNat
    some [u % 256, u / 256]

/-- struct.pack of an unsigned byte (format B); struct.error (none) outside
[0, 255]. -/
def packU8 (n : ℕ) : Option (List ℕ) := if n < 256 then some [n] else none

/-- struct.unpack of a little-endian two's-complement signed 16-bit value
(format h). -/
def unpackInt16 (b0 b1 : ℕ) : ℤ :=
  let u := b0 + 256 * b1
  if u < 32768 then (u : ℤ) else (u : ℤ) - 65536

/-- The byte values of the magic string LFSLYT. -/
def lytMagic : List ℕ := [76, 70, 83, 76, 89, 84]

/-- BLOCK_STRUCT.pack, the 8-byte object block of a LYT file
(Struct("2h4B")): signed 16-bit x and y, then the z-height, flags, object
index and heading bytes. -/
def BLOCK_STRUCT_pack (x y : ℤ) (z flags index heading : ℕ) :
    Option (List ℕ) :=
  (packInt16 x).bind fun bx =>
  (packInt16 y).bind fun byy =>
  (packU8 z).bind fun bz =>
  (packU8 flags).bind fun bf =>
  (packU8 index).bind fun bi =>
  (packU8 heading).bind fun bh =>
  some (bx ++ byy ++ bz ++ bf ++ bi ++ bh)

/-- HEADER_STRUCT.pack, the 12-byte header of a LYT file
(Struct("6sBBhBB")): 6 magic bytes, version and revision bytes, a signed
16-bit object count and two further bytes. -/
def HEADER_STRUCT_pack (magic : List ℕ) (version revision : ℕ) (nObj : ℤ)
    (b4 b5 : ℕ) : Option (List ℕ) :=
  if magic.length = 6 ∧ magic.all (· < 256) then
    (packU8 version).bind fun bv =>
    (packU8 revision).bind fun br =>
    (packInt16 nObj).bind fun bn =>
    (packU8 b4).bind fun b4b =>
    (packU8 b5).bind fun b5b =>
    some (magic ++ bv ++ br ++ bn ++ b4b ++ b5b)
  else none

/-- LytObjectIndexToConeType from lyt_interface/io/common.py: the closed
lookup from LYT object index bytes to cone types; none for non-cone objects. -/
def LytObjectIndexToConeType (idx : ℕ) : Option ConeTypes :=
  if idx = 25 then some .unknown
  else if idx = 29 then some .yellow
  else if idx = 30 then some .yellow
  else if idx = 23 then some .blue
  else if idx = 24 then some .blue
  else if idx = 27 then some .orangeBig
  else if idx = 20 then some .orangeSmall
  else none

/-- ConeTypeToLytObjectIndex from lyt_interface/io/common.py: inverse built by
keeping the first object index inserted for each cone type. -/
def ConeTypeToLytObjectIndex : ConeTypes → ℕ
  | .unknown => 25
  | .yellow => 29
  | .blue => 23
  | .orangeBig => 27
  | .orangeSmall => 20

/-- BLOCK_STRUCT.iter_unpack over the block region: consecutive 8-byte blocks
decoded as (x, y, z, flags, index, heading); struct.error (none) when the
length is not a multiple of the block size. -/
def iterUnpackBlocks : List ℕ → Option (List (ℤ × ℤ × ℕ × ℕ × ℕ × ℕ))
  | [] => some []
  | b0 :: b1 :: b2 :: b3 :: b4 :: b5 :: b6 :: b7 :: rest =>
      (iterUnpackBlocks rest).bind fun tail =>
      some ((unpackInt16 b0 b1, unpackInt16 b2 b3, b4, b5, b6, b7) :: tail)
  | _ => none

/-- Appending one cone position to the per-type accumulator, the loop body of
extract_cone_lists (all_cones_per_type[cone_type].append(...)). -/
def appendCone (acc : ConeTypes → List (ℚ × ℚ)) (t : ConeTypes) (p : ℚ × ℚ) :
    ConeTypes → List (ℚ × ℚ) :=
  fun s => if s = t then acc s ++ [p] else acc s

/-- The decoding loop of extract_cone_lists: for every block whose object
index byte maps to a cone type, append its coordinates divided by 16 to that
type's list; other blocks are silently skipped. -/
def collectCones (blocks : List (ℤ × ℤ × ℕ × ℕ × ℕ × ℕ))
    (acc : ConeTypes → List (ℚ × ℚ)) : ConeTypes → List (ℚ × ℚ) :=
  match blocks with
  | [] => acc
  | (x, y, _, _, idx, _) :: rest =>
      match LytObjectIndexToConeType idx with
      | none => collectCones rest acc
      | some t => collectCones rest (appendCone acc t ((x : ℚ) / 16, (y : ℚ) / 16))

/-- extract_cone_lists from load_lyt.py: unpack the blocks, then collect the
cone positions split by cone type. -/
def extract_cone_lists (blocks_data : List ℕ) :
    Option (List (List (ℚ × ℚ))) :=
  (iterUnpackBlocks blocks_data).bind fun blocks =>
  some (ConeTypes.all.map (collectCones blocks (fun _ => [])))

/-- verify_lyt_header from load_lyt.py: unpack the 12 header bytes and assert
that the magic is LFSLYT, the version byte is at most 0 and the revision byte
is at most 252.  The asserts are the FormatError of the specification; a
wrong-size header is a struct.error instead. -/
def verify_lyt_header (header_data : List ℕ) : Except LytLoadError Unit :=
  if header_data.length ≠ 12 then .error .structError
  else if header_data.take 6 ≠ lytMagic then .error .formatError
  else if header_data.getD 6 0 ≠ 0 then .error .formatError
  else if 252 < header_data.getD 7 0 then .error .formatError
  else .ok ()

/-- load_lyt_file from load_lyt.py, on the raw file bytes: split into the
fixed-size header and the block region, verify the header, then extract the
per-type cone lists.  A failure produces no cone lists at all (the per-type
lists are only built after both checks pass). -/
def load_lyt_bytes (data : List ℕ) :
    Except LytLoadError (List (List (ℚ × ℚ))) := do
  verify_lyt_header (data.take 12)
  match extract_cone_lists (data.drop 12) with
  | none => .error .structError
  | some cones => .ok cones

/-- Python indexing l[i] with negative-index wrapping: none on IndexError. -/
def pyGet (l : List (ℤ × ℤ)) (i : ℤ) : Option (ℤ × ℤ) :=
  let j := if i < 0 then (l.length : ℤ) + i else i
  if j < 0 then none else l.get? j.toNat

/-- Index of the first minimum of a list of integers (np.argmin); 0 for the
empty list (where numpy raises, and every later use fails too). -/
def argminFirst (l : List ℤ) : ℕ :=
  (l.enum.foldl
    (fun best idt => if idt.2 < best.2 then idt else best)
    (0, (l.getD 0 0))).1

/-- The join of the cone blocks of one trace: one 8-byte block per
(index, position) pair, z-height 240, flags 0, the given object index and a
heading byte per position. -/
def packConeBlocks (color_idx : ℕ) (headings : ℕ → ℕ) :
    List (ℕ × (ℤ × ℤ)) → Option (List ℕ)
  | [] => some []
  | ic :: rest =>
      (BLOCK_STRUCT_pack ic.2.1 ic.2.2 240 0 color_idx
        (headings ic.1)).bind fun b =>
      (packConeBlocks color_idx headings rest).bind fun bs =>
      some (b ++ bs)

/-- _create_lyt_trace_bytes from write_lyt.py for one cone trace in map units.
In the source the heading bytes come from atan2 over consecutive trace points
followed by the degrees-to-byte mapping, a float computation supplied here by
the parameter headings (one byte per cone position). -/
def create_lyt_trace_bytes (trace : List (ℤ × ℤ)) (color_idx : ℕ)
    (headings : ℕ → ℕ) : Option (List ℕ) :=
  packConeBlocks color_idx headings trace.enum

/-- The per-type list comprehension building the cone bytes of
_traces_to_lyt_bytes, over zip(ConeTypes, cones_in_map). -/
def packTraces (cone_headings : ConeTypes → ℕ → ℕ) :
    List (ConeTypes × List (ℤ × ℤ)) → Option (List (List ℕ))
  | [] => some []
  | tc :: rest =>
      (create_lyt_trace_bytes tc.2 (ConeTypeToLytObjectIndex tc.1)
        (cone_headings tc.1)).bind fun b =>
      (packTraces cone_headings rest).bind fun bs =>
      some (b :: bs)

/-- The start block of _traces_to_lyt_bytes: midpoint of the second-to-last
left and right cones, flags 0, object index 0, and the float-derived heading
byte supplied as the parameter start_heading (the loader ignores it); the
source also indexes left_in_map with -1 for the heading, so that access is
kept. -/
def startBlockBytes (left_in_map right_in_map : List (ℤ × ℤ))
    (start_heading : ℕ) : Option (List ℕ) :=
  (pyGet left_in_map (-2)).bind fun lm2 =>
  (pyGet right_in_map (-2)).bind fun rm2 =>
  (pyGet left_in_map (-1)).bind fun _ =>
  BLOCK_STRUCT_pack ((lm2.1 + rm2.1).fdiv 2) ((lm2.2 + rm2.2).fdiv 2)
    240 0 0 start_heading

/-- The finish block of _traces_to_lyt_bytes: midpoint of the first two
start-finish-line cones, the width field of the flags byte supplied as the
parameter finish_flags. -/
def finishBlockBytes (start_finish_in_map : List (ℤ × ℤ))
    (finish_flags finish_heading : ℕ) : Option (List ℕ) :=
  (pyGet start_finish_in_map 0).bind fun sf0 =>
  (pyGet start_finish_in_map 1).bind fun sf1 =>
  BLOCK_STRUCT_pack ((sf0.1 + sf1.1).fdiv 2) ((sf0.2 + sf1.2).fdiv 2)
    240 finish_flags 0 finish_heading

/-- The checkpoint block of _traces_to_lyt_bytes: midpoint of the half-way
left cone and the closest right cone (np.argmin over the distances, compared
here by squared distance, which preserves the first minimizer), flags byte
or-ed with checkpoint index 1. -/
def checkBlockBytes (left_in_map right_in_map : List (ℤ × ℤ))
    (check_flags check_heading : ℕ) : Option (List ℕ) :=
  (pyGet left_in_map ((left_in_map.length / 2 : ℕ) : ℤ)).bind fun lph =>
  (pyGet right_in_map (argminFirst (right_in_map.map fun r =>
    (lph.1 - r.1) ^ 2 + (lph.2 - r.2) ^ 2))).bind fun rph =>
  BLOCK_STRUCT_pack ((lph.1 + rph.1).fdiv 2) ((lph.2 + rph.2).fdiv 2)
    240 (Nat.lor check_flags 1) 0 check_heading

/-- The final assembly of _traces_to_lyt_bytes: the three control blocks, the
joined cone blocks, the divisibility assert and the header. -/
def assembleLytBytes (start_block finish_block check_block : List ℕ)
    (cones_bytes : List (List ℕ)) : Option (List ℕ) :=
  let final_object_blocks :=
    start_block ++ finish_block ++ check_block ++ cones_bytes.flatten
  if final_object_blocks.length % 8 = 0 then
    (HEADER_STRUCT_pack lytMagic 0 251
      ((final_object_blocks.length : ℤ) / 8) 10 8).bind fun header =>
    some (header ++ final_object_blocks)
  else none

/-- traces_to_lyt_bytes (source name _traces_to_lyt_bytes) from write_lyt.py:
scale the cone coordinates by 16, add 16 times the per-world offset and
truncate to integers; emit a start block, a finish block and one checkpoint
block (all with object index 0) followed by the per-type cone blocks; then
prepend the LFSLYT header with version 0, revision 251 and the object count.
The float-derived bytes (the four heading bytes and the width fields of the
finish and checkpoint flags bytes) are parameters; they are ignored by the
loader.  none models the write failing (IndexError on short left/right and
start-finish-line lists, struct.error or bytearray overflow on out-of-range
values). -/
def traces_to_lyt_bytes (cones_per_type : List (List (ℚ × ℚ)))
    (offset_in_meters : ℤ × ℤ) (cone_headings : ConeTypes → ℕ → ℕ)
    (start_heading finish_heading check_heading : ℕ)
    (finish_flags check_flags : ℕ) : Option (List ℕ) :=
  let cones_in_map : List (List (ℤ × ℤ)) :=
    cones_per_type.map (List.map fun c =>
      (truncQ (c.1 * 16 + 16 * offset_in_meters.1),
       truncQ (c.2 * 16 + 16 * offset_in_meters.2)))
  (packTraces cone_headings (ConeTypes.all.zip cones_in_map)).bind
    fun cones_bytes =>
  (cones_in_map.get? 1).bind fun right_in_map =>
  (cones_in_map.get? 2).bind fun left_in_map =>
  (cones_in_map.get? 4).bind fun start_finish_in_map =>
  (startBlockBytes left_in_map right_in_map start_heading).bind
    fun start_block =>
  (finishBlockBytes start_finish_in_map finish_flags finish_heading).bind
    fun finish_block =>
  (checkBlockBytes left_in_map right_in_map check_flags check_heading).bind
    fun check_block =>
  assembleLytBytes start_block finish_block check_block cones_bytes

/-- The per-world map offsets of write_traces_as_lyt; none for an unknown
world name (the source raises ValueError from the KeyError). -/
def worldOffset : String → Option (ℤ × ℤ)
  | "BL4" => some (-261, 124)
  | "AU1" => some (-50, -1010)
  | "AU2" => some (-138, -696)
  | "AU3" => some (-66, -50)
  | "WE3" => some (64, -1200)
  | "LA2" => some (538, 548)
  | _ => none

/-- write_traces_as_lyt from write_lyt.py, up to the file-system write: look
up the world's offset and produce the file bytes. -/
def write_traces_as_lyt_bytes (world_name : String)
    (cones_per_type : List (List (ℚ × ℚ))) (cone_headings : ConeTypes → ℕ → ℕ)
    (start_heading finish_heading check_heading : ℕ)
    (finish_flags check_flags : ℕ) : Option (List ℕ) :=
  (worldOffset world_name).bind fun offset =>
  traces_to_lyt_bytes cones_per_type offset cone_headings start_heading
    finish_heading check_heading finish_flags check_flags

/- ----------------------------------------------------------------------
   InSim control channel: outsim_interface/insim_utils.py
   (handle_insim_packet) and OutsimInterface.handle_insim_buffer.
   ---------------------------------------------------------------------- -/

/-- Python runtime values appearing in the tuple returned by
handle_insim_packet.  Text decoding of the layout name is modelled as the raw
bytes (its value plays no role in the framing claims). -/
inductive PyValue where
  | pynone
  | pybytes (bs : List ℕ)
  | pystr (bs : List ℕ)
  | pystate (bs : List ℕ)
  | pybool (b : Bool)
  deriving DecidableEq, Repr

/-- handle_insim_packet from insim_utils.py: dispatch on the packet-type byte
(index 1) and return the 4-tuple (packet_to_send, name, insim_state,
is_race_start) as a list of Python values.  Type 3 with sub-type 0 is the
keep-alive echo (struct.unpack of format BBBB requires exactly 4 bytes), type
43 carries the layout name (format 6BH32s requires exactly 40 bytes), type 17
is the race start, type 5 the state packet (asserted to be 28 bytes);
unrecognized types fall through and return the defaults. -/
def handle_insim_packet (packet : List ℕ) : Except PyError (List PyValue) :=
  match packet.get? 1 with
  | none => .error .indexError
  | some packet_type =>
    if packet_type = 3 then
      if packet.length ≠ 4 then .error .structError
      else if packet.getD 3 0 = 0 then
        .ok [.pybytes packet, .pynone, .pynone, .pybool false]
      else .ok [.pynone, .pynone, .pynone, .pybool false]
    else if packet_type = 43 then
      if packet.length ≠ 40 then .error .structError
      else .ok [.pynone, .pystr (packet.drop 8), .pynone, .pybool false]
    else if packet_type = 17 then
      .ok [.pynone, .pynone, .pynone, .pybool true]
    else if packet_type = 5 then
      if packet.length ≠ 28 then .error .assertionError
      else .ok [.pynone, .pynone, .pystate packet, .pybool false]
    else .ok [.pynone, .pynone, .pynone, .pybool false]

/-- OutsimInterface.handle_insim_buffer: while the buffer holds at least as
many bytes as its first (length) byte declares, slice off that packet, call
handle_insim_packet and unpack its result into the five names (to_send,
layout, new_insim_state, is_race_start, command); a tuple of any other arity
raises ValueError.  The remaining buffer is returned when the loop exits.
fuel bounds the number of iterations; none models a loop that has not
terminated within the given fuel. -/
def handle_insim_buffer : ℕ → List ℕ → Option (Except PyError (List ℕ))
  | 0, _ => none
  | fuel + 1, buffer =>
    if 0 < buffer.length ∧ buffer.getD 0 0 ≤ buffer.length then
      match handle_insim_packet (buffer.take (buffer.getD 0 0)) with
      | .error e => some (.error e)
      | .ok vals =>
        match vals with
        | [_, _, _, _, _] => handle_insim_buffer fuel (buffer.drop (buffer.getD 0 0))
        | _ => some (.error .valueError)
    else some (.ok buffer)

/- ----------------------------------------------------------------------
   Outsim telemetry decoder: outsim_interface/outsim_utils.py
   ---------------------------------------------------------------------- -/

/-- Errors of decode_full_outsim_packet: struct.error on a buffer that is not
exactly the 272 bytes of OUTSIM_FULL_STRUCT, and the failed magic assert,
which the specification names ProtocolError. -/
inductive OutsimDecodeError where
  | structError
  | protocolError
  deriving DecidableEq, Repr

/-- struct.unpack of a little-endian unsigned 32-bit value (format I). -/
def unpackU32 (b0 b1 b2 b3 : ℕ) : ℕ :=
  b0 + 256 * b1 + 65536 * b2 + 16777216 * b3

/-- struct.unpack of a little-endian two's-complement signed 32-bit value
(format i). -/
def unpackInt32 (b0 b1 b2 b3 : ℕ) : ℤ :=
  let u := unpackU32 b0 b1 b2 b3
  if u < 2147483648 then (u : ℤ) else (u : ℤ) - 4294967296

/-- The decoded outsim record.  The claims touch only the header (magic,
packet id, packet time) and the all-or-nothing decode, so the remaining 260
bytes of float, int and byte fields are kept as their raw bytes. -/
structure RawOutsimData where
  packet_id : ℤ
  packet_time : ℕ
  body : List ℕ
  deriving DecidableEq, Repr

/-- The byte values of the magic prefix LFST. -/
def outsimMagic : List ℕ := [76, 70, 83, 84]

/-- decode_full_outsim_packet from outsim_utils.py: struct.unpack the fixed
272-byte layout (struct.error on any other length), assert the 4-byte magic
prefix LFST (the ProtocolError of the specification), and only then build the
result record; no partially-built record is ever returned. -/
def decode_full_outsim_packet (packet : List ℕ) :
    Except OutsimDecodeError RawOutsimData :=
  if packet.length ≠ 272 then .error .structError
  else if packet.take 4 ≠ outsimMagic then .error .protocolError
  else
    .ok
      { packet_id := unpackInt32 (packet.getD 4 0) (packet.getD 5 0)
          (packet.getD 6 0) (packet.getD 7 0)
        packet_time := unpackU32 (packet.getD 8 0) (packet.getD 9 0)
          (packet.getD 10 0) (packet.getD 11 0)
        body := packet.drop 12 }

/- ----------------------------------------------------------------------
   LYT interface: lyt_interface/__init__.py and cone_observation.py
   ---------------------------------------------------------------------- -/

/-- The ObservedCone dataclass exactly as cone_observation.py declares it:
fields x, y and cone_type (and no cone id field). -/
structure ObservedCone where
  x : ℝ
  y : ℝ
  cone_type : ConeTypes

/-- The field names of the ObservedCone dataclass, in declaration order. -/
def observedConeFields : List String := ["x", "y", "cone_type"]

/-- The keyword names used by
LYTInterface.create_observed_cone_sequence_from_arrays when it constructs an
ObservedCone. -/
def observedConeCallKwargs : List String := ["x", "y", "cone_id", "cone_type"]

/-- Python dataclass keyword call check: the generated init accepts the call
iff every keyword is a declared field and every (default-free) field receives
a keyword; otherwise it raises TypeError. -/
def dataclassCallOk (fields kwargs : List String) : Bool :=
  kwargs.all (fields.contains ·) && fields.all (kwargs.contains ·)

/-- The list comprehension of create_observed_cone_sequence_from_arrays: one
keyword call ObservedCone(x=..., y=..., cone_id=..., cone_type=...) per
(position, index) pair, aborting with the first raised exception. -/
def observedConeBuild (cone_type : ConeTypes) :
    List ((ℝ × ℝ) × ℕ) → Except PyError (List ObservedCone)
  | [] => .ok []
  | pc :: rest =>
    if dataclassCallOk observedConeFields observedConeCallKwargs then
      match observedConeBuild cone_type rest with
      | .error e => .error e
      | .ok tail =>
        .ok ({ x := pc.1.1, y := pc.1.2, cone_type := cone_type } :: tail)
    else .error .typeError

/-- create_observed_cone_sequence_from_arrays from lyt_interface/__init__.py:
build one ObservedCone per (position, index) pair via the keyword call
ObservedCone(x=..., y=..., cone_id=..., cone_type=...); the call raises
TypeError whenever at least one pair is processed, because the dataclass does
not declare cone_id. -/
def create_observed_cone_sequence_from_arrays (positions : List (ℝ × ℝ))
    (indices : List ℕ) (cone_type : ConeTypes) :
    Except PyError (List ObservedCone) :=
  observedConeBuild cone_type (positions.zip indices)

noncomputable section

/-- Boolean-mask indexing paired with np.nonzero: the (index, cone) pairs of
the cones satisfying the visibility predicate, indices ascending from the
given start. -/
def visibleWithIndices (p : (ℝ × ℝ) → Prop) : ℕ → List (ℝ × ℝ) →
    List (ℕ × (ℝ × ℝ))
  | _, [] => []
  | i, c :: cs =>
    letI : Decidable (p c) := Classical.dec _
    if p c then (i, c) :: visibleWithIndices p (i + 1) cs
    else visibleWithIndices p (i + 1) cs

/-- LYTInterface.gather_cone_observation_single_trace: early return on an
empty trace, compute the visibility mask, early return when nothing is
visible, otherwise convert the visible cones to the car frame and build the
observation records from positions, original indices and the cone type. -/
def gather_cone_observation_single_trace (sight_range sight_angle : ℝ)
    (cone_type : ConeTypes) (car_pos car_dir : ℝ × ℝ)
    (trace : List (ℝ × ℝ)) : Except PyError (List ObservedCone) :=
  if trace = [] then .ok []
  else
    let vis := visibleWithIndices
      (coneVisible car_pos car_dir sight_range sight_angle) 0 trace
    if vis = [] then .ok []
    else
      create_observed_cone_sequence_from_arrays
        (trace_to_local_space car_pos car_dir (vis.map fun x => x.2))
        (vis.map fun x => x.1) cone_type

/-- The chain.from_iterable loop of get_visible_cones: concatenate the
per-type observation lists in order, aborting with the first raised
exception. -/
def gatherChain (sight_range sight_angle : ℝ) (car_pos car_dir : ℝ × ℝ) :
    List (List (ℝ × ℝ) × ConeTypes) → Except PyError (List ObservedCone)
  | [] => .ok []
  | tc :: rest =>
    match gather_cone_observation_single_trace sight_range sight_angle tc.2
        car_pos car_dir tc.1 with
    | .error e => .error e
    | .ok cones =>
      match gatherChain sight_range sight_angle car_pos car_dir rest with
      | .error e => .error e
      | .ok tail => .ok (cones ++ tail)

/-- LYTInterface.get_visible_cones: chain the per-type observation lists over
zip(all_cones_per_type, ConeTypes); a Python exception in any per-type step
aborts the whole call. -/
def get_visible_cones (sight_range sight_angle : ℝ)
    (all_cones_per_type : List (List (ℝ × ℝ))) (car_pos car_dir : ℝ × ℝ) :
    Except PyError (List ObservedCone) :=
  gatherChain sight_range sight_angle car_pos car_dir
    (all_cones_per_type.zip ConeTypes.all)

end

/- ----------------------------------------------------------------------
   Auxiliary definitions for stating the layout round-trip claims
   ---------------------------------------------------------------------- -/

/-- Cone coordinates given in 1/16-meter units, as their rational meter
values: the coordinates that are exact multiples of 1/16 meter. -/
def mapUnits (l : List (ℤ × ℤ)) : List (ℚ × ℚ) :=
  l.map fun k => ((k.1 : ℚ) / 16, (k.2 : ℚ) / 16)

/-- The same cone coordinates translated by the per-world offset: what a
written layout file holds once loaded back. -/
def mapLoaded (off : ℤ × ℤ) (l : List (ℤ × ℤ)) : List (ℚ × ℚ) :=
  l.map fun k => ((k.1 : ℚ) / 16 + (off.1 : ℚ), (k.2 : ℚ) / 16 + (off.2 : ℚ))

/-- Cone coordinates in map units: scaled by 16 and shifted by 16 times the
world offset, the integers actually stored in the file blocks. -/
def shiftInts (off : ℤ × ℤ) (l : List (ℤ × ℤ)) : List (ℤ × ℤ) :=
  l.map fun k => (k.1 + 16 * off.1, k.2 + 16 * off.2)

/-- Both coordinates of a map-unit point fit in a signed 16-bit field. -/
def int16RangeOK (k : ℤ × ℤ) : Prop :=
  -32768 ≤ k.1 ∧ k.1 ≤ 32767 ∧ -32768 ≤ k.2 ∧ k.2 ≤ 32767

instance : DecidablePred int16RangeOK := fun k => by
  unfold int16RangeOK
  infer_instance

/-- The block tuples produced by parsing the cone blocks of one trace. -/
def coneTuples (color_idx : ℕ) (headings : ℕ → ℕ)
    (l : List (ℕ × (ℤ × ℤ))) : List (ℤ × ℤ × ℕ × ℕ × ℕ × ℕ) :=
  l.map fun ik => (ik.2.1, ik.2.2, 240, 0, color_idx, headings ik.1)

/-- The write-then-load pipeline: the bytes produced by
write_traces_as_lyt and fed back through load_lyt_file. -/
def lytRoundTrip (world_name : String) (cones_per_type : List (List (ℚ × ℚ)))
    (cone_headings : ConeTypes → ℕ → ℕ)
    (start_heading finish_heading check_heading finish_flags check_flags : ℕ) :
    Option (Except LytLoadError (List (List (ℚ × ℚ)))) :=
  (write_traces_as_lyt_bytes world_name cones_per_type cone_headings
    start_heading finish_heading check_heading finish_flags check_flags).map
    load_lyt_bytes

/- ----------------------------------------------------------------------
   Theorems
   ---------------------------------------------------------------------- -/

/-- Claim C3, counterexample: running the per-tick loop on 31 identical raw
delta-times leaves 31 entries in the rolling window, refuting the claimed cap
of 30; and at loop counter 50, when at least 50 ticks have elapsed, a raw
delta-time of 10 against the window [1] (mean 1, spike threshold 3) is kept
unchanged instead of being replaced by the mean. -/
theorem deltaTime_window_counterexample :
    (deltaTimeRun (List.replicate 31 1)).length = 31 ∧
      ¬ (deltaTimeRun (List.replicate 31 1)).length ≤ 30 ∧
        (deltaTimeStep 50 [1] 10).1 = 10 ∧ 3 * listMean [1] < 10 := by
  refine ⟨by decide, by decide, by decide, ?_⟩
  norm_num [listMean]

/-- Claim C3, amended: once strictly more than 50 loop iterations have
passed and the rolling window is non-empty, a raw delta-time above 3 times
the window mean is replaced by that mean, the substituted value is the one
pushed into the window, and the new window consists of the last 30 previous
entries plus the new value, hence at most 31 entries. -/
theorem deltaTime_smoothing_amended (i : ℕ) (delta_ts : List ℚ)
    (delta_t_raw : ℚ) (hi : 50 < i) (hne : delta_ts ≠ [])
    (hspike : 3 * listMean delta_ts < delta_t_raw) :
    (deltaTimeStep i delta_ts delta_t_raw).1 = listMean delta_ts ∧
      (deltaTimeStep i delta_ts delta_t_raw).2
          = lastSlice 30 delta_ts ++ [listMean delta_ts] ∧
        (deltaTimeStep i delta_ts delta_t_raw).2.length ≤ 31 := by
  have hstep : deltaTimeStep i delta_ts delta_t_raw
      = (listMean delta_ts, lastSlice 30 delta_ts ++ [listMean delta_ts]) := by
    simp only [deltaTimeStep, if_pos (show 50 < i ∧ delta_ts ≠ [] ∧
      3 * listMean delta_ts < delta_t_raw from ⟨hi, hne, hspike⟩)]
  rw [hstep]
  refine ⟨rfl, rfl, ?_⟩
  simp only [List.length_append, List.length_cons, List.length_nil, lastSlice,
    List.length_drop]
  omega

/-- Claim C3, witness for the amended statement at loop counter 51, window
[1] and raw delta-time 4. -/
theorem deltaTime_smoothing_amended_witness :
    (50 < 51 ∧ ([(1 : ℚ)] ≠ []) ∧ 3 * listMean [(1 : ℚ)] < 4) ∧
      ((deltaTimeStep 51 [(1 : ℚ)] 4).1 = listMean [(1 : ℚ)] ∧
        (deltaTimeStep 51 [(1 : ℚ)] 4).2
            = lastSlice 30 [(1 : ℚ)] ++ [listMean [(1 : ℚ)]] ∧
          (deltaTimeStep 51 [(1 : ℚ)] 4).2.length ≤ 31) :=
  ⟨⟨by decide, by decide, by norm_num [listMean]⟩,
    deltaTime_smoothing_amended 51 [1] 4 (by decide) (by decide)
      (by norm_num [listMean])⟩

/-- Claim C9, evaluation at the failing input: the buffer holding the single
complete 4-byte keep-alive packet [4, 3, 1, 0] makes handle_insim_buffer
raise ValueError, because handle_insim_packet returns a 4-tuple while the
loop body unpacks five values; no bytes are consumed and no remainder is
returned. -/
theorem handle_insim_buffer_value_error_eval :
    handle_insim_buffer 1 [4, 3, 1, 0] = some (.error .valueError) := rfl

/-- Claim C7: decoding a full-length outsim buffer whose first 4 bytes are
not LFST fails with the magic-assert error (the ProtocolError of the spec)
and therefore never returns a decoded record. -/
theorem outsim_bad_magic_rejected (packet : List ℕ)
    (hlen : packet.length = 272) (hmagic : packet.take 4 ≠ outsimMagic) :
    decode_full_outsim_packet packet = .error .protocolError := by
  unfold decode_full_outsim_packet
  rw [if_neg (by simp [hlen]), if_pos hmagic]

/-- Claim C7, witness: the all-zero 272-byte buffer. -/
theorem outsim_bad_magic_rejected_witness :
    ((List.replicate 272 0).length = 272 ∧
        (List.replicate 272 0).take 4 ≠ outsimMagic) ∧
      decode_full_outsim_packet (List.replicate 272 0)
        = .error .protocolError :=
  ⟨⟨by rw [List.length_replicate], by rw [List.take_replicate]; decide⟩,
    outsim_bad_magic_rejected (List.replicate 272 0)
      (by rw [List.length_replicate]) (by rw [List.take_replicate]; decide)⟩

/-- Claim C8: loading layout bytes whose header magic is not LFSLYT, or whose
version byte exceeds 0, or whose revision byte exceeds 252, fails with the
header-assert error (the FormatError of the spec); the failed load returns
no cone lists at all. -/
theorem lyt_bad_header_rejected (data : List ℕ) (hlen : 12 ≤ data.length)
    (hbad : data.take 6 ≠ lytMagic ∨ data.getD 6 0 ≠ 0 ∨
      252 < data.getD 7 0) :
    load_lyt_bytes data = .error .formatError := by
  have h12 : (data.take 12).length = 12 := by
    rw [List.length_take]
    omega
  have htake6 : (data.take 12).take 6 = data.take 6 := by
    rw [List.take_take]
    congr 1
  have hget6 : (data.take 12).getD 6 0 = data.getD 6 0 := by
    simp [List.getD, List.getElem?_take_of_lt (show 6 < 12 by norm_num)]
  have hget7 : (data.take 12).getD 7 0 = data.getD 7 0 := by
    simp [List.getD, List.getElem?_take_of_lt (show 7 < 12 by norm_num)]
  have hverify : verify_lyt_header (data.take 12) = .error .formatError := by
    unfold verify_lyt_header
    rw [if_neg (by simp [h12]), htake6, hget6, hget7]
    rcases hbad with h | h | h
    · rw [if_pos h]
    · by_cases hm : data.take 6 ≠ lytMagic
      · rw [if_pos hm]
      · rw [if_neg hm, if_pos h]
    · by_cases hm : data.take 6 ≠ lytMagic
      · rw [if_pos hm]
      · rw [if_neg hm]
        by_cases hv : data.getD 6 0 ≠ 0
        · rw [if_pos hv]
        · rw [if_neg hv, if_pos h]
  unfold load_lyt_bytes
  rw [hverify]
  rfl

/-- Claim C8, witness: the all-zero 12-byte buffer (wrong magic). -/
theorem lyt_bad_header_rejected_witness :
    (12 ≤ (List.replicate 12 0 : List ℕ).length ∧
        (List.replicate 12 0 : List ℕ).take 6 ≠ lytMagic) ∧
      load_lyt_bytes (List.replicate 12 0) = .error .formatError :=
  ⟨⟨by simp, by decide⟩,
    lyt_bad_header_rejected (List.replicate 12 0) (by simp)
      (Or.inl (by decide))⟩

/-- The Euclidean norm of a nonzero 2D vector is positive. -/
theorem norm2_pos (v : ℝ × ℝ) (hv : v ≠ 0) : 0 < norm2 v := by
  have hne : v.1 ≠ 0 ∨ v.2 ≠ 0 := by
    by_contra h
    push_neg at h
    exact hv (Prod.ext h.1 h.2)
  unfold norm2
  apply Real.sqrt_pos.mpr
  rcases hne with h | h
  · have h1 : 0 < v.1 ^ 2 := by positivity
    nlinarith [sq_nonneg v.2]
  · have h2 : 0 < v.2 ^ 2 := by positivity
    nlinarith [sq_nonneg v.1]

/-- Cauchy-Schwarz for the embedded 2D dot product and norm. -/
theorem vec_dot_abs_le (u v : ℝ × ℝ) : |vec_dot u v| ≤ norm2 u * norm2 v := by
  have hsq : vec_dot u v ^ 2 ≤ (u.1 ^ 2 + u.2 ^ 2) * (v.1 ^ 2 + v.2 ^ 2) := by
    unfold vec_dot
    nlinarith [sq_nonneg (u.1 * v.2 - u.2 * v.1)]
  have h1 : |vec_dot u v| = Real.sqrt (vec_dot u v ^ 2) :=
    (Real.sqrt_sq_eq_abs _).symm
  have h2 : norm2 u * norm2 v
      = Real.sqrt ((u.1 ^ 2 + u.2 ^ 2) * (v.1 ^ 2 + v.2 ^ 2)) := by
    unfold norm2
    rw [← Real.sqrt_mul (by positivity)]
  rw [h1, h2]
  exact Real.sqrt_le_sqrt hsq

/-- The clamped cosine always lies in [-1, 1]. -/
theorem clampUnit_mem (c : ℝ) : -1 ≤ clampUnit c ∧ clampUnit c ≤ 1 := by
  unfold clampUnit
  split_ifs <;> constructor <;> linarith

/-- Clamping is the identity on in-range cosines. -/
theorem clampUnit_eq_self (c : ℝ) (h1 : -1 ≤ c) (h2 : c ≤ 1) :
    clampUnit c = c := by
  unfold clampUnit
  rw [if_neg (by linarith), if_neg (by linarith)]

/-- On nonzero vectors the clipped angle computation returns exactly the
standard angle: the exact cosine is already in [-1, 1], the clamp is the
identity and no NaN is produced. -/
theorem vec_angle_between_eq_spec (u v : ℝ × ℝ) (hu : u ≠ 0) (hv : v ≠ 0) :
    vec_angle_between u v true = some (angleBetweenSpec u v) := by
  have hn : 0 < norm2 u * norm2 v :=
    mul_pos (norm2_pos u hu) (norm2_pos v hv)
  have habs : |vec_dot u v / (norm2 u * norm2 v)| ≤ 1 := by
    rw [abs_div, abs_of_pos hn]
    exact (div_le_one hn).mpr (vec_dot_abs_le u v)
  have hc := abs_le.mp habs
  simp only [vec_angle_between, arccosF, angleBetweenSpec, if_true]
  rw [if_neg (ne_of_gt hn)]
  rw [clampUnit_eq_self _ hc.1 hc.2]
  rw [if_neg (by push_neg; exact ⟨hc.1, hc.2⟩)]

/-- Claim C1, evaluation of the code at a failing input: with the car at the
origin facing the positive y axis, the point (1, 0) sent through
trace_to_local_space and back through trace_to_global_space returns as
(-1, 0), not (1, 0) — both functions rotate by the same angle
-atan2(dir.y, dir.x), so the composition rotates by twice the car angle
instead of cancelling; the error exceeds the 1e-9 tolerance by far. -/
theorem frame_roundtrip_fails_eval :
    trace_to_global_space (0, 0) (0, 1)
        (trace_to_local_space (0, 0) (0, 1) [((1 : ℝ), 0)]) = [(-1, 0)] ∧
      ¬ |(-1 : ℝ) - 1| ≤ 1e-9 := by
  have harg : atan2 1 0 = Real.pi / 2 := by
    unfold atan2
    rw [show (⟨0, 1⟩ : ℂ) = Complex.I from Complex.ext rfl rfl, Complex.arg_I]
  constructor
  · simp only [trace_to_local_space, trace_to_global_space, rotate, List.map_cons,
      List.map_nil, harg, Real.cos_neg, Real.sin_neg, Real.cos_pi_div_two,
      Real.sin_pi_div_two]
    norm_num
  · rw [show (-1 : ℝ) - 1 = -2 by norm_num, abs_of_nonpos (by norm_num)]
    norm_num

/-- Claim C5: for a nonzero car direction and a cone away from the car
position, the basic conical detection mask holds iff the distance to the cone
is strictly below the range and the magnitude of the angle between the
heading and the vector to the cone is strictly below half the sight angle;
in particular a cone at exactly the range, or at exactly half the angle
off-axis, is not detected. -/
theorem basic_conical_detection_iff (car_pos car_dir cone : ℝ × ℝ)
    (sight_range sight_angle : ℝ) (hdir : car_dir ≠ 0)
    (hcone : cone ≠ car_pos) :
    (coneVisible car_pos car_dir sight_range sight_angle cone ↔
        norm2 (car_pos.1 - cone.1, car_pos.2 - cone.2) < sight_range ∧
          |angleBetweenSpec car_dir (cone.1 - car_pos.1, cone.2 - car_pos.2)|
            < sight_angle / 2) ∧
      (norm2 (car_pos.1 - cone.1, car_pos.2 - cone.2) = sight_range →
        ¬ coneVisible car_pos car_dir sight_range sight_angle cone) ∧
      (|angleBetweenSpec car_dir (cone.1 - car_pos.1, cone.2 - car_pos.2)|
            = sight_angle / 2 →
        ¬ coneVisible car_pos car_dir sight_range sight_angle cone) := by
  have hv : (cone.1 - car_pos.1, cone.2 - car_pos.2) ≠ (0 : ℝ × ℝ) := by
    intro h
    have h1 : cone.1 - car_pos.1 = 0 := by simpa using congrArg Prod.fst h
    have h2 : cone.2 - car_pos.2 = 0 := by simpa using congrArg Prod.snd h
    exact hcone (Prod.ext (by linarith) (by linarith))
  have hang := vec_angle_between_eq_spec car_dir _ hdir hv
  have htheta : 0 ≤ angleBetweenSpec car_dir
      (cone.1 - car_pos.1, cone.2 - car_pos.2) := Real.arccos_nonneg _
  have hiff : coneVisible car_pos car_dir sight_range sight_angle cone ↔
      norm2 (car_pos.1 - cone.1, car_pos.2 - cone.2) < sight_range ∧
        |angleBetweenSpec car_dir (cone.1 - car_pos.1, cone.2 - car_pos.2)|
          < sight_angle / 2 := by
    unfold coneVisible
    rw [hang]
    rw [abs_lt]
    constructor
    · rintro ⟨h1, h2, h3⟩
      exact ⟨h1, by linarith, h3⟩
    · rintro ⟨h1, h2, h3⟩
      exact ⟨h1, by linarith, h3⟩
  refine ⟨hiff, ?_, ?_⟩
  · intro hr hvis
    exact absurd ((hiff.mp hvis).1) (by rw [hr]; exact lt_irrefl _)
  · intro ha hvis
    exact absurd ((hiff.mp hvis).2) (by rw [ha]; exact lt_irrefl _)

/-- Claim C5, witness: car at the origin facing +x, cone at (1, 0), range 2
and sight angle pi. -/
theorem basic_conical_detection_iff_witness :
    (((1 : ℝ), (0 : ℝ)) ≠ (0, 0) ∧ ((1 : ℝ), (0 : ℝ)) ≠ ((0 : ℝ), (0 : ℝ))) ∧
      ((coneVisible (0, 0) (1, 0) 2 Real.pi (1, 0) ↔
          norm2 ((0 : ℝ) - 1, (0 : ℝ) - 0) < 2 ∧
            |angleBetweenSpec (1, 0) ((1 : ℝ) - 0, (0 : ℝ) - 0)|
              < Real.pi / 2) ∧
        (norm2 ((0 : ℝ) - 1, (0 : ℝ) - 0) = 2 →
          ¬ coneVisible (0, 0) (1, 0) 2 Real.pi (1, 0)) ∧
        (|angleBetweenSpec (1, 0) ((1 : ℝ) - 0, (0 : ℝ) - 0)| = Real.pi / 2 →
          ¬ coneVisible (0, 0) (1, 0) 2 Real.pi (1, 0))) :=
  ⟨⟨by norm_num, by norm_num⟩,
    basic_conical_detection_iff (0, 0) (1, 0) (1, 0) 2 Real.pi
      (by norm_num) (by norm_num)⟩

/-- Claim C6: with clipping enabled (the source default), the angle between
two nonzero vectors is never NaN, whatever rounding error e floating point
adds to the computed cosine — the clamp brings every overshoot back into the
arccos domain. -/
theorem angle_clamp_never_nan (v1 v2 : ℝ × ℝ) (h1 : v1 ≠ 0) (h2 : v2 ≠ 0)
    (e : ℝ) : (vec_angle_between_fperr v1 v2 e true).isSome = true := by
  have hn : 0 < norm2 v1 * norm2 v2 :=
    mul_pos (norm2_pos v1 h1) (norm2_pos v2 h2)
  have hb := clampUnit_mem (vec_dot v1 v2 / (norm2 v1 * norm2 v2) + e)
  simp only [vec_angle_between_fperr, arccosF, if_true]
  rw [if_neg (ne_of_gt hn)]
  rw [if_neg (by push_neg; exact ⟨hb.1, hb.2⟩)]
  rfl

/-- Claim C6, witness: equal unit vectors with a rounding error of 1/2, which
pushes the computed cosine to 3/2, outside the arccos domain. -/
theorem angle_clamp_never_nan_witness :
    (((1 : ℝ), (0 : ℝ)) ≠ 0 ∧ ((1 : ℝ), (0 : ℝ)) ≠ (0 : ℝ × ℝ)) ∧
      (vec_angle_between_fperr (1, 0) (1, 0) (1 / 2) true).isSome = true :=
  ⟨⟨by norm_num [Prod.ext_iff], by norm_num [Prod.ext_iff]⟩,
    angle_clamp_never_nan (1, 0) (1, 0) (by norm_num [Prod.ext_iff])
      (by norm_num [Prod.ext_iff]) (1 / 2)⟩

/-- Claim C10: a cone exactly at the vehicle position is never detected by
the visibility mask, although its distance 0 is below the positive range:
the vector to the cone has zero norm, the cosine quotient is the NaN 0/0,
and both strict angle comparisons with NaN are false.  The mask is a total
function, so the computation completes without raising. -/
theorem cone_at_vehicle_position_not_detected (car_pos car_dir : ℝ × ℝ)
    (sight_range sight_angle : ℝ) (hr : 0 < sight_range) :
    ¬ coneVisible car_pos car_dir sight_range sight_angle car_pos ∧
      norm2 (car_pos.1 - car_pos.1, car_pos.2 - car_pos.2) < sight_range := by
  have hzero : norm2 (car_pos.1 - car_pos.1, car_pos.2 - car_pos.2) = 0 := by
    simp [norm2]
  have hang : vec_angle_between car_dir
      (car_pos.1 - car_pos.1, car_pos.2 - car_pos.2) true = none := by
    simp only [vec_angle_between]
    rw [if_pos (by rw [hzero, mul_zero])]
  constructor
  · intro hvis
    unfold coneVisible at hvis
    rw [hang] at hvis
    exact hvis.2
  · rw [hzero]
    exact hr

/-- Claim C10, witness: car at the origin facing +x, range 1, sight angle
pi, cone at the car position. -/
theorem cone_at_vehicle_position_not_detected_witness :
    (0 : ℝ) < 1 ∧
      (¬ coneVisible (0, 0) (1, 0) 1 Real.pi (0, 0) ∧
        norm2 ((0 : ℝ) - 0, (0 : ℝ) - 0) < 1) :=
  ⟨by norm_num,
    cone_at_vehicle_position_not_detected (0, 0) (1, 0) 1 Real.pi
      (by norm_num)⟩

/-- Claim C4, evaluation of the code at a failing input: with one YELLOW cone
at (1, 0), the car at the origin facing +x, sight range 10 and sight angle
pi, the cone is visible, so get_visible_cones reaches the ObservedCone
keyword call with cone_id and raises TypeError (the dataclass declares only
x, y and cone_type); no observation list is returned. -/
theorem get_visible_cones_cone_id_type_error :
    get_visible_cones 10 Real.pi [[], [((1 : ℝ), 0)], [], [], []] (0, 0) (1, 0)
      = .error .typeError := by
  have hdir : ((1 : ℝ), (0 : ℝ)) ≠ (0 : ℝ × ℝ) := by
    norm_num [Prod.ext_iff]
  have hvec : ((1 : ℝ) - 0, (0 : ℝ) - 0) ≠ (0 : ℝ × ℝ) := by
    norm_num [Prod.ext_iff]
  have hangle : angleBetweenSpec ((1 : ℝ), (0 : ℝ)) ((1 : ℝ) - 0, (0 : ℝ) - 0)
      = 0 := by
    unfold angleBetweenSpec vec_dot norm2
    norm_num [Real.sqrt_one, Real.arccos_one]
  have hvis : coneVisible (0, 0) (1, 0) 10 Real.pi ((1 : ℝ), 0) := by
    unfold coneVisible
    constructor
    · show norm2 ((0 : ℝ) - 1, (0 : ℝ) - 0) < 10
      unfold norm2
      rw [show ((0 : ℝ) - 1) ^ 2 + ((0 : ℝ) - 0) ^ 2 = 1 by norm_num,
        Real.sqrt_one]
      norm_num
    · rw [vec_angle_between_eq_spec _ _ hdir hvec]
      show -Real.pi / 2 < angleBetweenSpec _ _ ∧ angleBetweenSpec _ _ < Real.pi / 2
      rw [hangle]
      constructor <;> [linarith [Real.pi_pos]; linarith [Real.pi_pos]]
  have hnotok : ¬ (dataclassCallOk observedConeFields observedConeCallKwargs
      = true) := by decide
  have hbuild : ∀ (p : ℝ × ℝ) (i : ℕ) (rest : List ((ℝ × ℝ) × ℕ)),
      observedConeBuild .yellow ((p, i) :: rest) = .error .typeError := by
    intro p i rest
    simp only [observedConeBuild]
    rw [if_neg hnotok]
  have hv1 : visibleWithIndices (coneVisible (0, 0) (1, 0) 10 Real.pi) 0
      [((1 : ℝ), 0)] = [(0, ((1 : ℝ), 0))] := by
    simp only [visibleWithIndices]
    rw [if_pos hvis]
  have hempty : ∀ ct, gather_cone_observation_single_trace 10 Real.pi ct
      (0, 0) (1, 0) [] = .ok [] := by
    intro ct
    unfold gather_cone_observation_single_trace
    rw [if_pos rfl]
  have hyellow : gather_cone_observation_single_trace 10 Real.pi .yellow
      (0, 0) (1, 0) [((1 : ℝ), 0)] = .error .typeError := by
    simp only [gather_cone_observation_single_trace,
      create_observed_cone_sequence_from_arrays, hv1]
    rw [if_neg (show ¬([((1 : ℝ), (0 : ℝ))] = []) by simp),
      if_neg (show ¬([((0 : ℕ), ((1 : ℝ), (0 : ℝ)))] = []) by simp)]
    simp only [List.map_cons, List.map_nil, trace_to_local_space, rotate,
      List.zip_cons_cons, List.zip_nil_right]
    exact hbuild _ _ _
  simp only [get_visible_cones, ConeTypes.all, List.zip_cons_cons,
    List.zip_nil_right, gatherChain, hempty, hyellow]

/-- Truncation toward zero is the identity on integers. -/
theorem truncQ_intCast (n : ℤ) : truncQ ((n : ℚ)) = n := by
  unfold truncQ
  split_ifs <;> simp

/-- Scaling a 1/16-unit coordinate by 16 and shifting by 16 times the offset
is exact: the truncation hits an integer. -/
theorem scale_unit_eval (k o : ℤ) :
    truncQ ((k : ℚ) / 16 * 16 + 16 * (o : ℚ)) = k + 16 * o := by
  rw [show (k : ℚ) / 16 * 16 + 16 * (o : ℚ) = ((k + 16 * o : ℤ) : ℚ) by
    push_cast; ring]
  exact truncQ_intCast _

/-- The writer's scaling map sends 1/16-unit cones to their exact shifted
integer map coordinates. -/
theorem mapUnits_scale (off : ℤ × ℤ) (l : List (ℤ × ℤ)) :
    (mapUnits l).map (fun c => (truncQ (c.1 * 16 + 16 * (off.1 : ℚ)),
      truncQ (c.2 * 16 + 16 * (off.2 : ℚ)))) = shiftInts off l := by
  induction l with
  | nil => rfl
  | cons a as ih =>
    simp only [mapUnits, shiftInts, List.map_cons] at ih ⊢
    rw [scale_unit_eval, scale_unit_eval]
    exact congrArg _ ih

/-- Packing an in-range int16 value yields its two little-endian bytes. -/
theorem packInt16_eval (n : ℤ) (h1 : -32768 ≤ n) (h2 : n ≤ 32767) :
    packInt16 n
      = some [(n % 65536).toNat % 256, (n % 65536).toNat / 256] := by
  unfold packInt16
  rw [if_neg (by omega)]

/-- Unpacking the two packed bytes of an in-range int16 value recovers it. -/
theorem unpackInt16_packed (n : ℤ) (h1 : -32768 ≤ n) (h2 : n ≤ 32767) :
    unpackInt16 ((n % 65536).toNat % 256) ((n % 65536).toNat / 256) = n := by
  simp only [unpackInt16]
  rw [Nat.mod_add_div]
  split_ifs <;> omega

/-- Packing an in-range block yields its 8 literal bytes. -/
theorem BLOCK_STRUCT_pack_eval (x y : ℤ) (z flags idx hd : ℕ)
    (hx1 : -32768 ≤ x) (hx2 : x ≤ 32767) (hy1 : -32768 ≤ y) (hy2 : y ≤ 32767)
    (hz : z < 256) (hf : flags < 256) (hi : idx < 256) (hh : hd < 256) :
    BLOCK_STRUCT_pack x y z flags idx hd
      = some [(x % 65536).toNat % 256, (x % 65536).toNat / 256,
          (y % 65536).toNat % 256, (y % 65536).toNat / 256, z, flags, idx,
          hd] := by
  unfold BLOCK_STRUCT_pack packU8
  rw [packInt16_eval x hx1 hx2, packInt16_eval y hy1 hy2,
    if_pos hz, if_pos hf, if_pos hi, if_pos hh]
  rfl

/-- Parsing a packed in-range block followed by further bytes yields the
block's field tuple followed by the parse of the rest. -/
theorem iterUnpack_pack_cons (x y : ℤ) (z flags idx hd : ℕ)
    (bs rest : List ℕ) (tail : List (ℤ × ℤ × ℕ × ℕ × ℕ × ℕ))
    (hx1 : -32768 ≤ x) (hx2 : x ≤ 32767) (hy1 : -32768 ≤ y) (hy2 : y ≤ 32767)
    (hz : z < 256) (hf : flags < 256) (hi : idx < 256) (hh : hd < 256)
    (hbs : BLOCK_STRUCT_pack x y z flags idx hd = some bs)
    (htail : iterUnpackBlocks rest = some tail) :
    iterUnpackBlocks (bs ++ rest) = some ((x, y, z, flags, idx, hd) :: tail)
      ∧ bs.length = 8 := by
  rw [BLOCK_STRUCT_pack_eval x y z flags idx hd hx1 hx2 hy1 hy2 hz hf hi hh]
    at hbs
  injection hbs with hbs2
  subst hbs2
  constructor
  · simp only [List.cons_append, List.append_eq, List.nil_append,
      iterUnpackBlocks, htail]
    rw [unpackInt16_packed x hx1 hx2, unpackInt16_packed y hy1 hy2]
    rfl
  · rfl

/-- Every cone-type object index of the lookup table is a byte. -/
theorem coneIdx_lt (t : ConeTypes) : ConeTypeToLytObjectIndex t < 256 := by
  cases t <;> decide

/-- The cone blocks of one trace pack successfully for in-range map
coordinates, and parsing them recovers exactly the trace's block tuples. -/
theorem packConeBlocks_parse (color_idx : ℕ) (headings : ℕ → ℕ)
    (hci : color_idx < 256) (hhd : ∀ i, headings i < 256)
    (K : List (ℤ × ℤ)) :
    ∀ (n : ℕ), (∀ k ∈ K, int16RangeOK k) →
      ∃ bs, packConeBlocks color_idx headings (K.enumFrom n) = some bs ∧
        bs.length = 8 * K.length ∧
        ∀ rest tail, iterUnpackBlocks rest = some tail →
          iterUnpackBlocks (bs ++ rest)
            = some (coneTuples color_idx headings (K.enumFrom n) ++ tail) := by
  induction K with
  | nil =>
    intro n _
    exact ⟨[], rfl, rfl, fun rest tail h => by simpa [coneTuples] using h⟩
  | cons a as ih =>
    intro n hr
    obtain ⟨bs', h1, h2, h3⟩ :=
      ih (n + 1) (fun k hk => hr k (List.mem_cons_of_mem _ hk))
    obtain ⟨ha1, ha2, ha3, ha4⟩ := hr a (List.mem_cons_self _ _)
    have hpack := BLOCK_STRUCT_pack_eval a.1 a.2 240 0 color_idx (headings n)
      ha1 ha2 ha3 ha4 (by norm_num) (by norm_num) hci (hhd n)
    refine ⟨[(a.1 % 65536).toNat % 256, (a.1 % 65536).toNat / 256,
        (a.2 % 65536).toNat % 256, (a.2 % 65536).toNat / 256, 240, 0,
        color_idx, headings n] ++ bs', ?_, ?_, ?_⟩
    · show packConeBlocks color_idx headings
        (List.enumFrom n (a :: as)) = _
      simp only [List.enumFrom]
      simp only [packConeBlocks, hpack, h1]
      rfl
    · simp only [List.length_append, List.length_cons, List.length_nil, h2]
      omega
    · intro rest tail htail
      have h4 := h3 rest tail htail
      have h5 := iterUnpack_pack_cons a.1 a.2 240 0 color_idx (headings n)
        _ _ _ ha1 ha2 ha3 ha4 (by norm_num) (by norm_num) hci (hhd n)
        hpack h4
      rw [List.append_assoc, h5.1]
      simp [coneTuples, List.enumFrom]

/-- The per-type cone byte lists pack successfully for in-range map
coordinates, and parsing their join recovers all block tuples in order. -/
theorem packTraces_parse (ch : ConeTypes → ℕ → ℕ)
    (hch : ∀ t i, ch t i < 256)
    (tcs : List (ConeTypes × List (ℤ × ℤ)))
    (hr : ∀ tc ∈ tcs, ∀ k ∈ tc.2, int16RangeOK k) :
    ∃ bss, packTraces ch tcs = some bss ∧
      bss.flatten.length
          = 8 * (tcs.map (fun tc => tc.2.length)).sum ∧
      ∀ rest tail, iterUnpackBlocks rest = some tail →
        iterUnpackBlocks (bss.flatten ++ rest)
          = some ((tcs.map fun tc =>
              coneTuples (ConeTypeToLytObjectIndex tc.1) (ch tc.1)
                tc.2.enum).flatten ++ tail) := by
  induction tcs with
  | nil =>
    exact ⟨[], rfl, rfl, fun rest tail h => by simpa using h⟩
  | cons tc tcs ih =>
    obtain ⟨bss', h1, h2, h3⟩ :=
      ih (fun x hx => hr x (List.mem_cons_of_mem _ hx))
    obtain ⟨bs, g1, g2, g3⟩ := packConeBlocks_parse
      (ConeTypeToLytObjectIndex tc.1) (ch tc.1) (coneIdx_lt tc.1)
      (hch tc.1) tc.2 0 (hr tc (List.mem_cons_self _ _))
    refine ⟨bs :: bss', ?_, ?_, ?_⟩
    · simp only [packTraces, create_lyt_trace_bytes]
      rw [show tc.2.enum = tc.2.enumFrom 0 from rfl, g1, h1]
      rfl
    · simp only [List.flatten_cons, List.length_append, List.map_cons,
        List.sum_cons, g2, h2]
      ring
    · intro rest tail htail
      have h4 := h3 rest tail htail
      rw [List.flatten_cons, List.append_assoc, g3 _ _ h4]
      simp [List.append_assoc, List.enum]

/-- The decoding loop distributes over appended block lists. -/
theorem collectCones_append (bs1 bs2 : List (ℤ × ℤ × ℕ × ℕ × ℕ × ℕ))
    (acc : ConeTypes → List (ℚ × ℚ)) :
    collectCones (bs1 ++ bs2) acc = collectCones bs2 (collectCones bs1 acc) := by
  induction bs1 generalizing acc with
  | nil => rfl
  | cons b bs ih =>
    obtain ⟨x, y, z, f, idx, hd⟩ := b
    cases h : LytObjectIndexToConeType idx with
    | none =>
      simp only [List.cons_append, collectCones, h]
      exact ih acc
    | some t =>
      simp only [List.cons_append, collectCones, h]
      exact ih _

/-- A control block (object index 0) is skipped by the decoding loop. -/
theorem collectCones_skip_control (x y : ℤ) (z f hd : ℕ)
    (rest : List (ℤ × ℤ × ℕ × ℕ × ℕ × ℕ)) (acc : ConeTypes → List (ℚ × ℚ)) :
    collectCones ((x, y, z, f, 0, hd) :: rest) acc = collectCones rest acc := by
  simp only [collectCones]
  rw [show LytObjectIndexToConeType 0 = none from rfl]

/-- The two lookup tables are inverse on the kept representatives. -/
theorem lookup_coneIdx (t : ConeTypes) :
    LytObjectIndexToConeType (ConeTypeToLytObjectIndex t) = some t := by
  cases t <;> rfl

/-- The decoding loop over one trace's cone blocks appends exactly that
trace's coordinates, divided by 16, to the trace's cone type. -/
theorem collectCones_run (cidx : ℕ) (t : ConeTypes)
    (hcidx : LytObjectIndexToConeType cidx = some t) (hf : ℕ → ℕ)
    (l : List (ℕ × (ℤ × ℤ))) :
    ∀ acc, collectCones (coneTuples cidx hf l) acc
      = fun s => if s = t then
          acc s ++ l.map (fun ik => ((ik.2.1 : ℚ) / 16, (ik.2.2 : ℚ) / 16))
        else acc s := by
  induction l with
  | nil =>
    intro acc
    funext s
    by_cases hs : s = t <;> simp [coneTuples, collectCones, hs]
  | cons ik l ih =>
    intro acc
    simp only [coneTuples, List.map_cons] at ih ⊢
    simp only [collectCones, hcidx]
    rw [ih]
    funext s
    by_cases hs : s = t
    · simp [hs, appendCone]
    · simp [hs, appendCone]

/-- Mapping a function of the value over an enumerated list forgets the
indices. -/
theorem enum_map_snd_comp (g : (ℤ × ℤ) → (ℚ × ℚ)) (l : List (ℤ × ℤ)) :
    l.enum.map (fun ik => g ik.2) = l.map g := by
  rw [show (fun ik : ℕ × (ℤ × ℤ) => g ik.2) = g ∘ Prod.snd from rfl,
    ← List.map_map, List.enum_map_snd]

/-- The shifted map coordinates divided by 16 are the original 1/16-unit
coordinates translated by the offset. -/
theorem shift_coords (off : ℤ × ℤ) (l : List (ℤ × ℤ)) :
    (shiftInts off l).map (fun k => ((k.1 : ℚ) / 16, (k.2 : ℚ) / 16))
      = mapLoaded off l := by
  induction l with
  | nil => rfl
  | cons a as ih =>
    simp only [shiftInts, mapLoaded, List.map_cons] at ih ⊢
    rw [ih]
    refine congrArg (· :: _) ?_
    refine Prod.ext ?_ ?_ <;> (push_cast; ring)

/-- Python negative indexing on a sufficiently long list. -/
theorem pyGet_neg (l : List (ℤ × ℤ)) (m : ℕ) (hm : 0 < m)
    (h : m ≤ l.length) : pyGet l (-(m : ℤ)) = l.get? (l.length - m) := by
  simp only [pyGet]
  rw [if_pos (show -(m : ℤ) < 0 by omega),
    if_neg (show ¬((l.length : ℤ) + -(m : ℤ) < 0) by omega)]
  congr 1
  omega

/-- Python nonnegative indexing is plain list indexing. -/
theorem pyGet_nat (l : List (ℤ × ℤ)) (n : ℕ) :
    pyGet l (n : ℤ) = l.get? n := by
  simp only [pyGet]
  rw [if_neg (show ¬((n : ℤ) < 0) by omega),
    if_neg (show ¬((n : ℤ) < 0) by omega)]
  simp

/-- An index below the length yields a member element. -/
theorem get?_some_mem (l : List (ℤ × ℤ)) (n : ℕ) (h : n < l.length) :
    ∃ e, l.get? n = some e ∧ e ∈ l := by
  rw [List.get?_eq_get h]
  exact ⟨_, rfl, List.get_mem _ _ _⟩

/-- The floor midpoint of two int16 values is an int16 value. -/
theorem mid_range (a b : ℤ) (ha1 : -32768 ≤ a) (ha2 : a ≤ 32767)
    (hb1 : -32768 ≤ b) (hb2 : b ≤ 32767) :
    -32768 ≤ (a + b).fdiv 2 ∧ (a + b).fdiv 2 ≤ 32767 := by
  rw [Int.fdiv_eq_ediv _ (by norm_num)]
  omega

/-- The first-minimum fold keeps its index below any bound satisfied by the
start index and all enumerated indices. -/
theorem argmin_fold_lt (bound : ℕ) (l : List (ℕ × ℤ)) :
    ∀ acc : ℕ × ℤ, acc.1 < bound → (∀ p ∈ l, p.1 < bound) →
      (l.foldl (fun best idt => if idt.2 < best.2 then idt else best)
        acc).1 < bound := by
  induction l with
  | nil => exact fun _ h _ => h
  | cons p ps ih =>
    intro acc hacc hall
    simp only [List.foldl_cons]
    apply ih
    · split_ifs
      · exact hall p (List.mem_cons_self _ _)
      · exact hacc
    · exact fun q hq => hall q (List.mem_cons_of_mem _ hq)

/-- Every index produced by enumFrom is below the start plus the length. -/
theorem enumFrom_fst_lt (l : List ℤ) :
    ∀ (n : ℕ) (p : ℕ × ℤ), p ∈ l.enumFrom n → p.1 < n + l.length := by
  induction l with
  | nil => intro n p hp; simp [List.enumFrom] at hp
  | cons a as ih =>
    intro n p hp
    simp only [List.enumFrom, List.mem_cons] at hp
    rcases hp with rfl | hp
    · simp
    · have := ih (n + 1) p hp
      simp only [List.length_cons]
      omega

/-- np.argmin over a non-empty list returns an in-bounds index. -/
theorem argminFirst_lt (l : List ℤ) (h : l ≠ []) :
    argminFirst l < l.length := by
  unfold argminFirst
  apply argmin_fold_lt
  · cases l with
    | nil => exact absurd rfl h
    | cons a as => simp
  · intro p hp
    have := enumFrom_fst_lt l 0 p (by simpa [List.enum] using hp)
    omega

/-- The start block packs successfully for in-range map coordinates, and
parses to a tuple with object index 0. -/
theorem startBlockBytes_eval (L R : List (ℤ × ℤ)) (sh : ℕ)
    (hL : 2 ≤ L.length) (hR : 2 ≤ R.length)
    (hLr : ∀ k ∈ L, int16RangeOK k) (hRr : ∀ k ∈ R, int16RangeOK k)
    (hsh : sh < 256) :
    ∃ bs x y, startBlockBytes L R sh = some bs ∧ bs.length = 8 ∧
      ∀ rest tail, iterUnpackBlocks rest = some tail →
        iterUnpackBlocks (bs ++ rest)
          = some ((x, y, 240, 0, 0, sh) :: tail) := by
  obtain ⟨lm2, hlm2, hlm2m⟩ := get?_some_mem L (L.length - 2) (by omega)
  obtain ⟨rm2, hrm2, hrm2m⟩ := get?_some_mem R (R.length - 2) (by omega)
  obtain ⟨lm1, hlm1, _⟩ := get?_some_mem L (L.length - 1) (by omega)
  obtain ⟨hl1, hl2, hl3, hl4⟩ := hLr lm2 hlm2m
  obtain ⟨hr1, hr2, hr3, hr4⟩ := hRr rm2 hrm2m
  obtain ⟨hx1, hx2⟩ := mid_range lm2.1 rm2.1 hl1 hl2 hr1 hr2
  obtain ⟨hy1, hy2⟩ := mid_range lm2.2 rm2.2 hl3 hl4 hr3 hr4
  have hpack := BLOCK_STRUCT_pack_eval ((lm2.1 + rm2.1).fdiv 2)
    ((lm2.2 + rm2.2).fdiv 2) 240 0 0 sh hx1 hx2 hy1 hy2
    (by norm_num) (by norm_num) (by norm_num) hsh
  have heval : startBlockBytes L R sh
      = BLOCK_STRUCT_pack ((lm2.1 + rm2.1).fdiv 2) ((lm2.2 + rm2.2).fdiv 2)
        240 0 0 sh := by
    unfold startBlockBytes
    rw [show (-2 : ℤ) = -((2 : ℕ) : ℤ) by norm_num,
      show (-1 : ℤ) = -((1 : ℕ) : ℤ) by norm_num,
      pyGet_neg L 2 (by norm_num) hL, hlm2,
      pyGet_neg R 2 (by norm_num) hR, hrm2,
      pyGet_neg L 1 (by norm_num) (by omega), hlm1]
    rfl
  refine ⟨_, (lm2.1 + rm2.1).fdiv 2, (lm2.2 + rm2.2).fdiv 2,
    heval.trans hpack, rfl, ?_⟩
  intro rest tail htail
  exact (iterUnpack_pack_cons _ _ 240 0 0 sh _ rest tail hx1 hx2 hy1 hy2
    (by norm_num) (by norm_num) (by norm_num) hsh hpack htail).1

/-- The finish block packs successfully for in-range map coordinates, and
parses to a tuple with object index 0. -/
theorem finishBlockBytes_eval (S : List (ℤ × ℤ)) (ff fh : ℕ)
    (hS : 2 ≤ S.length) (hSr : ∀ k ∈ S, int16RangeOK k)
    (hff : ff < 256) (hfh : fh < 256) :
    ∃ bs x y, finishBlockBytes S ff fh = some bs ∧ bs.length = 8 ∧
      ∀ rest tail, iterUnpackBlocks rest = some tail →
        iterUnpackBlocks (bs ++ rest)
          = some ((x, y, 240, ff, 0, fh) :: tail) := by
  obtain ⟨s0, hs0, hs0m⟩ := get?_some_mem S 0 (by omega)
  obtain ⟨s1, hs1, hs1m⟩ := get?_some_mem S 1 (by omega)
  obtain ⟨h01, h02, h03, h04⟩ := hSr s0 hs0m
  obtain ⟨h11, h12, h13, h14⟩ := hSr s1 hs1m
  obtain ⟨hx1, hx2⟩ := mid_range s0.1 s1.1 h01 h02 h11 h12
  obtain ⟨hy1, hy2⟩ := mid_range s0.2 s1.2 h03 h04 h13 h14
  have hpack := BLOCK_STRUCT_pack_eval ((s0.1 + s1.1).fdiv 2)
    ((s0.2 + s1.2).fdiv 2) 240 ff 0 fh hx1 hx2 hy1 hy2
    (by norm_num) hff (by norm_num) hfh
  have heval : finishBlockBytes S ff fh
      = BLOCK_STRUCT_pack ((s0.1 + s1.1).fdiv 2) ((s0.2 + s1.2).fdiv 2)
        240 ff 0 fh := by
    unfold finishBlockBytes
    rw [show ((0 : ℤ)) = ((0 : ℕ) : ℤ) from rfl,
      show ((1 : ℤ)) = ((1 : ℕ) : ℤ) from rfl,
      pyGet_nat S 0, hs0, pyGet_nat S 1, hs1]
    rfl
  refine ⟨_, (s0.1 + s1.1).fdiv 2, (s0.2 + s1.2).fdiv 2,
    heval.trans hpack, rfl, ?_⟩
  intro rest tail htail
  exact (iterUnpack_pack_cons _ _ 240 ff 0 fh _ rest tail hx1 hx2 hy1 hy2
    (by norm_num) hff (by norm_num) hfh hpack htail).1

/-- The checkpoint block packs successfully for in-range map coordinates,
and parses to a tuple with object index 0. -/
theorem checkBlockBytes_eval (L R : List (ℤ × ℤ)) (cf ch2 : ℕ)
    (hL : 2 ≤ L.length) (hR : 2 ≤ R.length)
    (hLr : ∀ k ∈ L, int16RangeOK k) (hRr : ∀ k ∈ R, int16RangeOK k)
    (hcf : cf < 256) (hch2 : ch2 < 256) :
    ∃ bs x y, checkBlockBytes L R cf ch2 = some bs ∧ bs.length = 8 ∧
      ∀ rest tail, iterUnpackBlocks rest = some tail →
        iterUnpackBlocks (bs ++ rest)
          = some ((x, y, 240, Nat.lor cf 1, 0, ch2) :: tail) := by
  obtain ⟨lph, hlph, hlphm⟩ := get?_some_mem L (L.length / 2) (by omega)
  have hargr : argminFirst (R.map fun r =>
      (lph.1 - r.1) ^ 2 + (lph.2 - r.2) ^ 2) < R.length := by
    have := argminFirst_lt (R.map fun r =>
      (lph.1 - r.1) ^ 2 + (lph.2 - r.2) ^ 2)
      (by simp [List.map_eq_nil_iff]; intro h; rw [h] at hR; simp at hR)
    simpa using this
  obtain ⟨rph, hrph, hrphm⟩ := get?_some_mem R _ hargr
  obtain ⟨hl1, hl2, hl3, hl4⟩ := hLr lph hlphm
  obtain ⟨hr1, hr2, hr3, hr4⟩ := hRr rph hrphm
  obtain ⟨hx1, hx2⟩ := mid_range lph.1 rph.1 hl1 hl2 hr1 hr2
  obtain ⟨hy1, hy2⟩ := mid_range lph.2 rph.2 hl3 hl4 hr3 hr4
  have hlor : Nat.lor cf 1 < 256 := by
    have h1 : cf < 2 ^ 8 := by omega
    have h2 : 1 < 2 ^ 8 := by norm_num
    have := Nat.bitwise_lt (f := or) h1 h2
    simpa [Nat.lor] using this
  have hpack := BLOCK_STRUCT_pack_eval ((lph.1 + rph.1).fdiv 2)
    ((lph.2 + rph.2).fdiv 2) 240 (Nat.lor cf 1) 0 ch2 hx1 hx2 hy1 hy2
    (by norm_num) hlor (by norm_num) hch2
  have heval : checkBlockBytes L R cf ch2
      = BLOCK_STRUCT_pack ((lph.1 + rph.1).fdiv 2) ((lph.2 + rph.2).fdiv 2)
        240 (Nat.lor cf 1) 0 ch2 := by
    unfold checkBlockBytes
    rw [pyGet_nat L (L.length / 2), hlph]
    simp only [Option.some_bind]
    rw [pyGet_nat R _, hrph]
    simp only [Option.some_bind]
  refine ⟨_, (lph.1 + rph.1).fdiv 2, (lph.2 + rph.2).fdiv 2,
    heval.trans hpack, rfl, ?_⟩
  intro rest tail htail
  exact (iterUnpack_pack_cons _ _ 240 (Nat.lor cf 1) 0 ch2 _ rest tail
    hx1 hx2 hy1 hy2 (by norm_num) hlor (by norm_num) hch2 hpack htail).1

/-- The written header packs successfully for an in-range object count. -/
theorem HEADER_STRUCT_pack_eval (n : ℤ) (h1 : 0 ≤ n) (h2 : n ≤ 32767) :
    HEADER_STRUCT_pack lytMagic 0 251 n 10 8
      = some [76, 70, 83, 76, 89, 84, 0, 251, (n % 65536).toNat % 256,
          (n % 65536).toNat / 256, 10, 8] := by
  unfold HEADER_STRUCT_pack packU8
  rw [if_pos (by decide), if_pos (by norm_num), if_pos (by norm_num),
    packInt16_eval n (by omega) h2, if_pos (by norm_num),
    if_pos (by norm_num)]
  rfl

/-- The writer's final assembly succeeds: the block region is a whole number
of blocks and the object count fits the header's int16 field. -/
theorem assembleLytBytes_eval (sb fb cb : List ℕ) (cones_bytes : List (List ℕ))
    (N : ℕ) (hsb : sb.length = 8) (hfb : fb.length = 8) (hcb : cb.length = 8)
    (hflat : cones_bytes.flatten.length = 8 * N) (hN : 3 + N ≤ 32767) :
    assembleLytBytes sb fb cb cones_bytes
      = some ([76, 70, 83, 76, 89, 84, 0, 251,
          (((3 + N : ℕ) : ℤ) % 65536).toNat % 256,
          (((3 + N : ℕ) : ℤ) % 65536).toNat / 256, 10, 8]
        ++ (sb ++ fb ++ cb ++ cones_bytes.flatten)) := by
  have hlen : (sb ++ fb ++ cb ++ cones_bytes.flatten).length = 24 + 8 * N := by
    simp only [List.length_append, hsb, hfb, hcb, hflat]
  simp only [assembleLytBytes, hlen]
  rw [if_pos (show (24 + 8 * N) % 8 = 0 by omega)]
  rw [show ((24 + 8 * N : ℕ) : ℤ) / 8 = ((3 + N : ℕ) : ℤ) by
    push_cast; omega]
  rw [HEADER_STRUCT_pack_eval ((3 + N : ℕ) : ℤ) (by positivity) (by
    push_cast; omega)]
  rfl

/-- Loading a file made of the written header followed by a parsable block
region verifies the header and returns the collected per-type cone lists. -/
theorem load_assembled (b0 b1 : ℕ) (blocks : List ℕ)
    (tuples : List (ℤ × ℤ × ℕ × ℕ × ℕ × ℕ))
    (hblocks : iterUnpackBlocks blocks = some tuples) :
    load_lyt_bytes ([76, 70, 83, 76, 89, 84, 0, 251, b0, b1, 10, 8] ++ blocks)
      = .ok (ConeTypes.all.map (collectCones tuples (fun _ => []))) := by
  have htake : ([76, 70, 83, 76, 89, 84, 0, 251, b0, b1, 10, 8]
      ++ blocks).take 12 = [76, 70, 83, 76, 89, 84, 0, 251, b0, b1, 10, 8] := by
    rw [show (12 : ℕ)
      = ([76, 70, 83, 76, 89, 84, 0, 251, b0, b1, 10, 8] : List ℕ).length
      from by simp, List.take_left]
  have hdrop : ([76, 70, 83, 76, 89, 84, 0, 251, b0, b1, 10, 8]
      ++ blocks).drop 12 = blocks := by
    rw [show (12 : ℕ)
      = ([76, 70, 83, 76, 89, 84, 0, 251, b0, b1, 10, 8] : List ℕ).length
      from by simp, List.drop_left]
  have hverify : verify_lyt_header
      [76, 70, 83, 76, 89, 84, 0, 251, b0, b1, 10, 8] = .ok () := by
    unfold verify_lyt_header
    rw [if_neg (by simp), if_neg (by simp [lytMagic]),
      if_neg (by simp [List.getD]), if_neg (by simp [List.getD])]
  have hextract : extract_cone_lists blocks
      = some (ConeTypes.all.map (collectCones tuples (fun _ => []))) := by
    unfold extract_cone_lists
    rw [hblocks]
    rfl
  unfold load_lyt_bytes
  rw [htake, hdrop, hverify, hextract]
  rfl

/-- Shifting in-range cones by the offset keeps every map coordinate in the
int16 range when the range hypothesis speaks about the shifted values. -/
theorem shiftInts_range (off : ℤ × ℤ) (l : List (ℤ × ℤ))
    (h : ∀ k ∈ l, int16RangeOK (k.1 + 16 * off.1, k.2 + 16 * off.2)) :
    ∀ k ∈ shiftInts off l, int16RangeOK k := by
  intro k hk
  simp only [shiftInts, List.mem_map] at hk
  obtain ⟨a, ha, rfl⟩ := hk
  exact h a ha

/-- The per-cone coordinates recovered from the blocks of one shifted trace
are the original coordinates translated by the offset. -/
theorem enum_div_coords (off : ℤ × ℤ) (l : List (ℤ × ℤ)) :
    (shiftInts off l).enum.map
        (fun ik => ((ik.2.1 : ℚ) / 16, (ik.2.2 : ℚ) / 16))
      = mapLoaded off l := by
  rw [show (fun ik : ℕ × (ℤ × ℤ) => ((ik.2.1 : ℚ) / 16, (ik.2.2 : ℚ) / 16))
      = (fun k : ℤ × ℤ => ((k.1 : ℚ) / 16, (k.2 : ℚ) / 16)) ∘ Prod.snd
      from rfl,
    ← List.map_map, List.enum_map_snd, shift_coords]

/-- General write-then-load computation: writing five per-type cone lists
whose coordinates are exact multiples of 1/16 meter (given here in 1/16
units) for a known world, under the writer's well-formedness conditions
(at least two right, left and start-finish-line cones, all map coordinates
and the object count within the int16 range, all float-derived bytes in
byte range), and loading the produced file back, yields per type and in
order the original coordinates translated by the world's fixed offset. -/
theorem lyt_write_load (U Y B O S : List (ℤ × ℤ)) (world : String)
    (off : ℤ × ℤ) (hw : worldOffset world = some off)
    (ch : ConeTypes → ℕ → ℕ) (sh fh ck ff cf : ℕ)
    (hch : ∀ t i, ch t i < 256) (hsh : sh < 256) (hfh : fh < 256)
    (hck : ck < 256) (hff : ff < 256) (hcf : cf < 256)
    (hY2 : 2 ≤ Y.length) (hB2 : 2 ≤ B.length) (hS2 : 2 ≤ S.length)
    (hcount : 3 + (U.length + Y.length + B.length + O.length + S.length)
      ≤ 32767)
    (hrange : ∀ k ∈ U ++ Y ++ B ++ O ++ S,
      int16RangeOK (k.1 + 16 * off.1, k.2 + 16 * off.2)) :
    lytRoundTrip world [mapUnits U, mapUnits Y, mapUnits B, mapUnits O,
        mapUnits S] ch sh fh ck ff cf
      = some (.ok [mapLoaded off U, mapLoaded off Y, mapLoaded off B,
          mapLoaded off O, mapLoaded off S]) := by
  have hU : ∀ k ∈ shiftInts off U, int16RangeOK k :=
    shiftInts_range off U (fun k hk => hrange k (by simp [hk]))
  have hY : ∀ k ∈ shiftInts off Y, int16RangeOK k :=
    shiftInts_range off Y (fun k hk => hrange k (by simp [hk]))
  have hB : ∀ k ∈ shiftInts off B, int16RangeOK k :=
    shiftInts_range off B (fun k hk => hrange k (by simp [hk]))
  have hO : ∀ k ∈ shiftInts off O, int16RangeOK k :=
    shiftInts_range off O (fun k hk => hrange k (by simp [hk]))
  have hS : ∀ k ∈ shiftInts off S, int16RangeOK k :=
    shiftInts_range off S (fun k hk => hrange k (by simp [hk]))
  have hY2s : 2 ≤ (shiftInts off Y).length := by
    simpa [shiftInts] using hY2
  have hB2s : 2 ≤ (shiftInts off B).length := by
    simpa [shiftInts] using hB2
  have hS2s : 2 ≤ (shiftInts off S).length := by
    simpa [shiftInts] using hS2
  obtain ⟨bss, hbss, hbsslen, hbssparse⟩ := packTraces_parse ch hch
    (ConeTypes.all.zip [shiftInts off U, shiftInts off Y, shiftInts off B,
      shiftInts off O, shiftInts off S]) (by
    intro tc htc
    simp only [ConeTypes.all, List.zip_cons_cons, List.zip_nil_right,
      List.mem_cons, List.not_mem_nil, or_false] at htc
    rcases htc with rfl | rfl | rfl | rfl | rfl
    exacts [hU, hY, hB, hO, hS])
  obtain ⟨sb, sx, sy, hsb, hsblen, hsbparse⟩ := startBlockBytes_eval
    (shiftInts off B) (shiftInts off Y) sh hB2s hY2s hB hY hsh
  obtain ⟨fb, fx, fy, hfb, hfblen, hfbparse⟩ := finishBlockBytes_eval
    (shiftInts off S) ff fh hS2s hS hff hfh
  obtain ⟨cb, cx, cy, hcb, hcblen, hcbparse⟩ := checkBlockBytes_eval
    (shiftInts off B) (shiftInts off Y) cf ck hB2s hY2s hB hY hcf hck
  have hmap : ([mapUnits U, mapUnits Y, mapUnits B, mapUnits O,
      mapUnits S]).map (List.map fun c =>
        (truncQ (c.1 * 16 + 16 * (off.1 : ℚ)),
         truncQ (c.2 * 16 + 16 * (off.2 : ℚ))))
      = [shiftInts off U, shiftInts off Y, shiftInts off B, shiftInts off O,
         shiftInts off S] := by
    simp only [List.map_cons, List.map_nil, mapUnits_scale]
  have hwrite : write_traces_as_lyt_bytes world
      [mapUnits U, mapUnits Y, mapUnits B, mapUnits O, mapUnits S]
      ch sh fh ck ff cf = assembleLytBytes sb fb cb bss := by
    unfold write_traces_as_lyt_bytes
    rw [hw]
    simp only [Option.some_bind]
    simp only [traces_to_lyt_bytes]
    rw [hmap, hbss]
    simp only [Option.some_bind]
    rw [show [shiftInts off U, shiftInts off Y, shiftInts off B,
      shiftInts off O, shiftInts off S].get? 1 = some (shiftInts off Y)
      from rfl]
    simp only [Option.some_bind]
    rw [show [shiftInts off U, shiftInts off Y, shiftInts off B,
      shiftInts off O, shiftInts off S].get? 2 = some (shiftInts off B)
      from rfl]
    simp only [Option.some_bind]
    rw [show [shiftInts off U, shiftInts off Y, shiftInts off B,
      shiftInts off O, shiftInts off S].get? 4 = some (shiftInts off S)
      from rfl]
    simp only [Option.some_bind]
    rw [hsb]
    simp only [Option.some_bind]
    rw [hfb]
    simp only [Option.some_bind]
    rw [hcb]
    simp only [Option.some_bind]
  have hsum : ((ConeTypes.all.zip [shiftInts off U, shiftInts off Y,
      shiftInts off B, shiftInts off O, shiftInts off S]).map
        fun tc => tc.2.length).sum
      = U.length + Y.length + B.length + O.length + S.length := by
    simp only [ConeTypes.all, List.zip_cons_cons, List.zip_nil_right,
      List.map_cons, List.map_nil, List.sum_cons, List.sum_nil, shiftInts,
      List.length_map]
    omega
  have hasm := assembleLytBytes_eval sb fb cb bss
    (U.length + Y.length + B.length + O.length + S.length)
    hsblen hfblen hcblen (by rw [hbsslen, hsum]) hcount
  have hnil : iterUnpackBlocks ([] : List ℕ) = some [] := rfl
  have hcones := hbssparse [] [] hnil
  rw [List.append_nil, List.append_nil] at hcones
  have hcb2 := hcbparse bss.flatten _ hcones
  have hfb2 := hfbparse (cb ++ bss.flatten) _ hcb2
  have hsb2 := hsbparse (fb ++ (cb ++ bss.flatten)) _ hfb2
  unfold lytRoundTrip
  rw [hwrite, hasm]
  rw [show ∀ (a : List ℕ) (f : List ℕ → Except LytLoadError
      (List (List (ℚ × ℚ)))), (some a).map f = some (f a) from
    fun a f => rfl]
  simp only [List.append_assoc]
  rw [load_assembled _ _ _ _ hsb2]
  refine congrArg _ (congrArg _ ?_)
  rw [collectCones_skip_control, collectCones_skip_control,
    collectCones_skip_control]
  rw [show ((ConeTypes.all.zip [shiftInts off U, shiftInts off Y,
      shiftInts off B, shiftInts off O, shiftInts off S]).map
        fun tc => coneTuples (ConeTypeToLytObjectIndex tc.1) (ch tc.1)
          tc.2.enum).flatten
      = coneTuples (ConeTypeToLytObjectIndex .unknown) (ch .unknown)
          (shiftInts off U).enum
        ++ (coneTuples (ConeTypeToLytObjectIndex .yellow) (ch .yellow)
          (shiftInts off Y).enum
        ++ (coneTuples (ConeTypeToLytObjectIndex .blue) (ch .blue)
          (shiftInts off B).enum
        ++ (coneTuples (ConeTypeToLytObjectIndex .orangeSmall)
          (ch .orangeSmall) (shiftInts off O).enum
        ++ coneTuples (ConeTypeToLytObjectIndex .orangeBig) (ch .orangeBig)
          (shiftInts off S).enum))) from by
    simp [ConeTypes.all]]
  rw [collectCones_append, collectCones_append, collectCones_append,
    collectCones_append]
  rw [collectCones_run _ _ (lookup_coneIdx .unknown) (ch .unknown)
      (shiftInts off U).enum,
    collectCones_run _ _ (lookup_coneIdx .yellow) (ch .yellow)
      (shiftInts off Y).enum,
    collectCones_run _ _ (lookup_coneIdx .blue) (ch .blue)
      (shiftInts off B).enum,
    collectCones_run _ _ (lookup_coneIdx .orangeSmall) (ch .orangeSmall)
      (shiftInts off O).enum,
    collectCones_run _ _ (lookup_coneIdx .orangeBig) (ch .orangeBig)
      (shiftInts off S).enum]
  simp only [ConeTypes.all, List.map_cons, List.map_nil]
  simp +decide [enum_div_coords]

/-- Claim C2, counterexample: writing a small valid layout on world BL4
(yellow cones at (0,0) and (1,0), blue at (0,1) and (1,1), start-finish at
(0,0) and (0,1), all multiples of 1/16 meter) and loading the file back does
NOT return the same coordinates: every loaded coordinate is translated by
the BL4 world offset (-261, 124), because the writer adds the offset but the
loader never subtracts it. -/
theorem lyt_roundtrip_counterexample :
    lytRoundTrip "BL4"
        [[], [(0, 0), (1, 0)], [(0, 1), (1, 1)], [], [(0, 0), (0, 1)]]
        (fun _ _ => 0) 0 0 0 0 0
      = some (.ok [[], [(-261, 124), (-260, 124)],
          [(-261, 125), (-260, 125)], [], [(-261, 124), (-261, 125)]])
    ∧ ([[], [(-261, 124), (-260, 124)], [(-261, 125), (-260, 125)], [],
        [(-261, 124), (-261, 125)]] : List (List (ℚ × ℚ)))
      ≠ [[], [(0, 0), (1, 0)], [(0, 1), (1, 1)], [], [(0, 0), (0, 1)]] := by
  constructor
  · have h := lyt_write_load [] [(0, 0), (16, 0)] [(0, 16), (16, 16)] []
      [(0, 0), (0, 16)] "BL4" (-261, 124) rfl (fun _ _ => 0) 0 0 0 0 0
      (by intro t i; norm_num) (by norm_num) (by norm_num) (by norm_num)
      (by norm_num) (by norm_num) (by decide) (by decide) (by decide)
      (by decide) (by decide)
    rw [show [mapUnits ([] : List (ℤ × ℤ)), mapUnits [(0, 0), (16, 0)],
        mapUnits [(0, 16), (16, 16)], mapUnits ([] : List (ℤ × ℤ)),
        mapUnits [(0, 0), (0, 16)]]
        = [[], [((0 : ℚ), (0 : ℚ)), (1, 0)], [(0, 1), (1, 1)], [],
           [(0, 0), (0, 1)]] from by norm_num [mapUnits],
      show [mapLoaded (-261, 124) ([] : List (ℤ × ℤ)),
        mapLoaded (-261, 124) [(0, 0), (16, 0)],
        mapLoaded (-261, 124) [(0, 16), (16, 16)],
        mapLoaded (-261, 124) ([] : List (ℤ × ℤ)),
        mapLoaded (-261, 124) [(0, 0), (0, 16)]]
        = [[], [((-261 : ℚ), (124 : ℚ)), (-260, 124)],
           [(-261, 125), (-260, 125)], [], [(-261, 124), (-261, 125)]]
        from by norm_num [mapLoaded]] at h
    exact h
  · intro heq
    norm_num [List.cons.injEq, Prod.mk.injEq] at heq

/-- Claim C2 (amended): for every per-type list of cone coordinates that are
multiples of 1/16 meter (given in 1/16 units), with the writer's
preconditions satisfied (a known world, at least two yellow, two blue and
two start-finish cones, all heading and flag bytes below 256, the object
count within int16 range, and all offset-shifted map coordinates within
int16 range), loading the layout file produced by the layout writer returns
the coordinates translated, per type and per coordinate, by the world's
fixed offset — not the original coordinates. -/
theorem lyt_roundtrip_offset (U Y B O S : List (ℤ × ℤ)) (world : String)
    (off : ℤ × ℤ) (hw : worldOffset world = some off)
    (ch : ConeTypes → ℕ → ℕ) (sh fh ck ff cf : ℕ)
    (hch : ∀ t i, ch t i < 256) (hsh : sh < 256) (hfh : fh < 256)
    (hck : ck < 256) (hff : ff < 256) (hcf : cf < 256)
    (hY2 : 2 ≤ Y.length) (hB2 : 2 ≤ B.length) (hS2 : 2 ≤ S.length)
    (hcount : 3 + (U.length + Y.length + B.length + O.length + S.length)
      ≤ 32767)
    (hrange : ∀ k ∈ U ++ Y ++ B ++ O ++ S,
      int16RangeOK (k.1 + 16 * off.1, k.2 + 16 * off.2)) :
    lytRoundTrip world [mapUnits U, mapUnits Y, mapUnits B, mapUnits O,
        mapUnits S] ch sh fh ck ff cf
      = some (.ok [mapLoaded off U, mapLoaded off Y, mapLoaded off B,
          mapLoaded off O, mapLoaded off S]) :=
  lyt_write_load U Y B O S world off hw ch sh fh ck ff cf hch hsh hfh hck
    hff hcf hY2 hB2 hS2 hcount hrange

/-- Witness for the amended claim C2 theorem at a concrete layout. -/
theorem lyt_roundtrip_offset_witness :
    lytRoundTrip "BL4"
        [mapUnits [], mapUnits [(0, 0), (16, 0)],
         mapUnits [(0, 16), (16, 16)], mapUnits [],
         mapUnits [(0, 0), (0, 16)]] (fun _ _ => 0) 0 0 0 0 0
      = some (.ok [mapLoaded (-261, 124) [],
          mapLoaded (-261, 124) [(0, 0), (16, 0)],
          mapLoaded (-261, 124) [(0, 16), (16, 16)],
          mapLoaded (-261, 124) [],
          mapLoaded (-261, 124) [(0, 0), (0, 16)]]) :=
  lyt_roundtrip_offset [] [(0, 0), (16, 0)] [(0, 16), (16, 16)] []
    [(0, 0), (0, 16)] "BL4" (-261, 124) rfl (fun _ _ => 0) 0 0 0 0 0
    (by intro t i; norm_num) (by norm_num) (by norm_num) (by norm_num)
    (by norm_num) (by norm_num) (by decide) (by decide) (by decide)
    (by decide) (by decide)

end Lfsd
